import Mathlib

/-!
# BackFlow structural source-analysis engine — verification development

This file gives a shallow embedding of the heuristic Go source-code analysis
engine of the BackFlow desktop IDE (the `astParser`, `goUtils` and
`apiFlowUtils` modules plus their IPC handlers), and proves or refutes the
behavioural properties stated for it.

The original code scans raw source text with JavaScript regular expressions
and hand-written character/line scanners.  The embedding therefore starts
with a small backtracking regular-expression engine (`RE`, `reMatch`,
`reSearchFrom`, `reExecAll`) faithful to the ECMAScript semantics actually
exercised by the patterns used in the code (greedy quantifiers, ordered
alternation, leftmost search, capture groups, the `g`/`m`/`i` flags, and
the falsy-fallback idiom `match[k] || d`).  Every source regex appears
below as an `RE` value whose doc comment quotes the original literal.

File-system access (`readFileSync`, `readdirSync`) is modelled by explicit
in-memory structures: a project is a list of `(relative path, contents)`
pairs, a directory tree is an `FSEntry`.  A read that fails in the original
throws; here it is an absent lookup (`Option`).
-/

namespace BackFlow

/-! ## JavaScript string primitives -/

/-- JS `\w` character class: `[A-Za-z0-9_]`. -/
def jsIsWordChar (c : Char) : Bool :=
  c.isAlpha || c.isDigit || c = '_'

/-- JS `\s` character class restricted to the ASCII whitespace actually
occurring in scanned source text. -/
def jsIsSpaceChar (c : Char) : Bool :=
  c = ' ' || c = '\t' || c = '\n' || c = '\r' || c = '\x0b' || c = '\x0c'

/-- JS `String.prototype.includes` (substring test). -/
def jsIncludes (s sub : String) : Bool :=
  go s.data sub.data
where
  go : List Char → List Char → Bool
  | _, [] => true
  | [], _ :: _ => false
  | c :: cs, sub => sub.isPrefixOf (c :: cs) || go cs sub

/-- JS `String.prototype.split` with a single-character separator.
`"".split(c) = [""]`, like `String.splitOn`. -/
def jsSplit (s : String) (sep : Char) : List String :=
  (go s.data [] []).reverse
where
  go : List Char → List Char → List String → List String
  | [], cur, acc => String.mk cur.reverse :: acc
  | c :: cs, cur, acc =>
    if c = sep then go cs [] (String.mk cur.reverse :: acc)
    else go cs (c :: cur) acc

/-- JS `String.prototype.substring(a, b)` (with both ends). -/
def jsSubstring (s : String) (a b : Nat) : String :=
  String.mk ((s.data.take b).drop a)

/-- JS `String.prototype.substring(a)` (to the end of the string). -/
def jsSubstringFrom (s : String) (a : Nat) : String :=
  String.mk (s.data.drop a)

/-- JS `String.prototype.trim`. -/
def jsTrim (s : String) : String :=
  String.mk ((s.data.dropWhile jsIsSpaceChar).reverse.dropWhile jsIsSpaceChar |>.reverse)

/-- JS `String.prototype.toLowerCase` (ASCII). -/
def jsToLower (s : String) : String :=
  String.mk (s.data.map Char.toLower)

/-- JS `String.prototype.toUpperCase` (ASCII). -/
def jsToUpper (s : String) : String :=
  String.mk (s.data.map Char.toUpper)

/-- JS `s.startsWith(p)`. -/
def jsStartsWith (s p : String) : Bool :=
  p.data.isPrefixOf s.data

/-- JS `s.endsWith(p)`. -/
def jsEndsWith (s p : String) : Bool :=
  p.data.reverse.isPrefixOf s.data.reverse

/-- JS falsy-fallback `a || b` on strings (empty string is falsy). -/
def jsOr (a b : String) : String :=
  if a = "" then b else a

/-- JS falsy-fallback `x || b` where `x` may be `undefined` (capture groups). -/
def jsOrOpt (a : Option String) (b : String) : String :=
  match a with
  | none => b
  | some s => jsOr s b

/-- JS `Array.prototype.findIndex` (as an `Option`; `none` models `-1`). -/
def jsFindIndex (p : α → Bool) : List α → Option Nat
  | [] => none
  | a :: as =>
    if p a then some 0
    else (jsFindIndex p as).map (· + 1)

/-- JS `p.split(/\s+/)` (whitespace runs as separator): a maximal run of
whitespace separates tokens; runs touching either end contribute an empty
token there. -/
def jsSplitWs (s : String) : List String :=
  go s.data [] false
where
  go : List Char → List Char → Bool → List String
  | [], cur, _ => [String.mk cur.reverse]
  | c :: cs, cur, inRun =>
    if jsIsSpaceChar c then
      if inRun then go cs [] true
      else String.mk cur.reverse :: go cs [] true
    else go cs (c :: cur) false

/-- Index-carrying enumeration,`[(i, l[0]), (i+1, l[1]), …]`; used to model
JS array callbacks that receive the element index. -/
def enumFrom (i : Nat) : List α → List (Nat × α)
  | [] => []
  | a :: as => (i, a) :: enumFrom (i + 1) as

/-! ## Regular-expression engine

A backtracking matcher for the fragment of ECMAScript regexes used by the
source: literals, character classes built from literal characters and the
`\w`/`\s` classes (possibly negated), concatenation, ordered alternation,
the greedy quantifiers `?`, `*`, `+`, capture groups, and an end-of-input
anchor.  `^` anchoring (with or without the `m` flag) is handled by the
search driver.  The matcher is fuelled; the fuel computed by `reFuel`
dominates the depth of any backtracking path because every quantifier
iteration is required to consume at least one character, exactly as in
ECMAScript. -/

/-- One constituent of a character class. -/
inductive CharSpec where
  | chr (c : Char)
  | word
  | space
  deriving DecidableEq, Repr

/-- Regular expressions (the fragment used by the source's patterns). -/
inductive RE where
  | eps
  | lit (s : String)
  | cls (neg : Bool) (specs : List CharSpec)
  | seq (a b : RE)
  | alt (a b : RE)
  | opt (r : RE)
  | star (r : RE)
  | plus (r : RE)
  | group (n : Nat) (r : RE)
  | eos
  deriving DecidableEq, Repr

/-- Concatenation of a list of regexes. -/
def reCat (rs : List RE) : RE :=
  rs.foldr RE.seq RE.eps

/-- Ordered alternation of literal strings (e.g. `GET|POST|PUT|DELETE|PATCH`). -/
def reLitAlts : List String → RE
  | [] => RE.eps
  | [s] => RE.lit s
  | s :: rest => RE.alt (RE.lit s) (reLitAlts rest)

/-- `\w+` -/
def rWordPlus : RE := RE.plus (RE.cls false [CharSpec.word])

/-- `\s*` -/
def rWsStar : RE := RE.star (RE.cls false [CharSpec.space])

/-- `\s+` -/
def rWsPlus : RE := RE.plus (RE.cls false [CharSpec.space])

/-- `[^c]` -/
def rNot (c : Char) : RE := RE.cls true [CharSpec.chr c]

/-- `[^c]+` -/
def rNotPlus (c : Char) : RE := RE.plus (rNot c)

/-- `[^c]*` -/
def rNotStar (c : Char) : RE := RE.star (rNot c)

/-- `.` (any character except newline), `.*`, `.+` -/
def rDot : RE := RE.cls true [CharSpec.chr '\n']

def rDotStar : RE := RE.star rDot

def rDotPlus : RE := RE.plus rDot

/-- Character comparison, optionally case-insensitive (`i` flag). -/
def charEq (ci : Bool) (a b : Char) : Bool :=
  if ci then a.toLower = b.toLower else a = b

/-- Class membership test. -/
def specMatches (ci : Bool) (sp : CharSpec) (c : Char) : Bool :=
  match sp with
  | CharSpec.chr a => charEq ci a c
  | CharSpec.word => jsIsWordChar c
  | CharSpec.space => jsIsSpaceChar c

def clsMatches (ci : Bool) (neg : Bool) (specs : List CharSpec) (c : Char) : Bool :=
  if neg then !(specs.any (fun sp => specMatches ci sp c))
  else specs.any (fun sp => specMatches ci sp c)

/-- Captures: group index ↦ captured text; later entries shadow earlier. -/
abbrev Caps := List (Nat × String)

def capSet (caps : Caps) (n : Nat) (s : String) : Caps := (n, s) :: caps

/-- Group lookup (`match[n]`); `none` models JS `undefined`. -/
def capGet (caps : Caps) (n : Nat) : Option String :=
  (caps.find? (fun p => p.1 = n)).map (·.2)

def litMatch (ci : Bool) : List Char → List Char → Option (List Char)
  | [], s => some s
  | _ :: _, [] => none
  | a :: as, c :: cs => if charEq ci a c then litMatch ci as cs else none

/-- The backtracking matcher, in continuation style.  Success order is the
ECMAScript order: alternation tries the left branch first, quantifiers are
greedy, a quantifier iteration must consume input. -/
def reMatch (ci : Bool) : Nat → RE → List Char → Caps →
    (List Char → Caps → Option (List Char × Caps)) → Option (List Char × Caps)
  | 0, _, _, _, _ => none
  | _ + 1, RE.eps, s, caps, k => k s caps
  | _ + 1, RE.lit l, s, caps, k =>
    match litMatch ci l.data s with
    | none => none
    | some rest => k rest caps
  | _ + 1, RE.cls neg specs, s, caps, k =>
    match s with
    | [] => none
    | c :: cs => if clsMatches ci neg specs c then k cs caps else none
  | f + 1, RE.seq a b, s, caps, k =>
    reMatch ci f a s caps (fun s' caps' => reMatch ci f b s' caps' k)
  | f + 1, RE.alt a b, s, caps, k =>
    (reMatch ci f a s caps k).orElse (fun _ => reMatch ci f b s caps k)
  | f + 1, RE.opt r, s, caps, k =>
    (reMatch ci f r s caps k).orElse (fun _ => k s caps)
  | f + 1, RE.star r, s, caps, k =>
    (reMatch ci f r s caps (fun s' caps' =>
      if s'.length < s.length then reMatch ci f (RE.star r) s' caps' k
      else none)).orElse (fun _ => k s caps)
  | f + 1, RE.plus r, s, caps, k =>
    reMatch ci f (RE.seq r (RE.star r)) s caps k
  | f + 1, RE.group n r, s, caps, k =>
    reMatch ci f r s caps (fun s' caps' =>
      k s' (capSet caps' n (String.mk (s.take (s.length - s'.length)))))
  | _ + 1, RE.eos, s, caps, k =>
    match s with
    | [] => k [] caps
    | _ :: _ => none

/-- Structural size of a regex, used to compute sufficient fuel. -/
def reSize : RE → Nat
  | RE.eps => 1
  | RE.lit _ => 1
  | RE.cls _ _ => 1
  | RE.seq a b => reSize a + reSize b + 1
  | RE.alt a b => reSize a + reSize b + 1
  | RE.opt r => reSize r + 1
  | RE.star r => reSize r + 2
  | RE.plus r => 2 * reSize r + 4
  | RE.group _ r => reSize r + 1
  | RE.eos => 1

/-- Fuel that dominates the depth of any backtracking path of `reMatch`. -/
def reFuel (r : RE) (len : Nat) : Nat :=
  (reSize r + 2) * (len + 2)

/-- Try to match `r` at the start of `s`; returns consumed length + captures. -/
def tryMatchAt (ci : Bool) (r : RE) (s : List Char) : Option (Nat × Caps) :=
  match reMatch ci (reFuel r s.length) r s [] (fun rest caps => some (rest, caps)) with
  | none => none
  | some (rest, caps) => some (s.length - rest.length, caps)

/-- How `^`-anchoring of a pattern is interpreted by the search driver. -/
inductive AnchorMode where
  | free      -- no anchor
  | start     -- `^…` without the `m` flag: position 0 only
  | multiline -- `^…` with the `m` flag: position 0 or just after a newline
  deriving DecidableEq, Repr

/-- A regex match as JS reports it: start index, matched text, captures. -/
structure RExec where
  index : Nat
  matched : String
  caps : Caps
  deriving DecidableEq, Repr

/-- Can the search try a match at position `pos` given the previous char? -/
def anchorOk (mode : AnchorMode) (pos : Nat) (prev : Option Char) : Bool :=
  match mode with
  | AnchorMode.free => true
  | AnchorMode.start => pos = 0
  | AnchorMode.multiline => pos = 0 || prev = some '\n'

/-- Leftmost search from position `pos` (the tail `s` is the suffix of the
subject starting at `pos`; `prev` is the character before it). -/
def reSearchAux (ci : Bool) (mode : AnchorMode) (r : RE) :
    List Char → Nat → Option Char → Option RExec
  | s, pos, prev =>
    (if anchorOk mode pos prev then
      match tryMatchAt ci r s with
      | some (n, caps) => some ⟨pos, String.mk (s.take n), caps⟩
      | none => none
    else none).orElse (fun _ =>
      match s with
      | [] => none
      | c :: cs => reSearchAux ci mode r cs (pos + 1) (some c))

/-- JS `regex.exec(subject)` / `subject.match(regex)` (first match) starting
the search at `from`. -/
def reSearchFrom (ci : Bool) (mode : AnchorMode) (r : RE) (subject : String)
    (start : Nat) : Option RExec :=
  let chars := subject.data
  reSearchAux ci mode r (chars.drop start) start
    (if start = 0 then none else (chars.take start).getLast?)

/-- First match in the whole subject. -/
def reSearch (ci : Bool) (mode : AnchorMode) (r : RE) (subject : String) :
    Option RExec :=
  reSearchFrom ci mode r subject 0

/-- Does the pattern match anywhere (JS `line.match(p)` used as a boolean)? -/
def reTest (ci : Bool) (mode : AnchorMode) (r : RE) (subject : String) : Bool :=
  (reSearch ci mode r subject).isSome

/-- All matches, advancing `lastIndex` past each match exactly as a JS
`while ((m = p.exec(s)) !== null)` loop over a `g` regex does.  (None of the
embedded patterns can match the empty string; the `max 1` guard only makes
the recursion well-founded.) -/
def reExecAllAux (ci : Bool) (mode : AnchorMode) (r : RE) (subject : String) :
    Nat → Nat → List RExec
  | 0, _ => []
  | fuel + 1, lastIndex =>
    match reSearchFrom ci mode r subject lastIndex with
    | none => []
    | some m =>
      m :: reExecAllAux ci mode r subject fuel
        (m.index + max 1 m.matched.length)

/-- All matches of a `g` regex (`exec` loop / `matchAll` / `match` with `g`). -/
def reExecAll (ci : Bool) (mode : AnchorMode) (r : RE) (subject : String) :
    List RExec :=
  reExecAllAux ci mode r subject (subject.length + 1) 0

/-- JS `content.match(p)` for a global `p`: the list of full-match strings,
`none` when there is no match at all. -/
def jsMatchG (ci : Bool) (mode : AnchorMode) (r : RE) (subject : String) :
    Option (List String) :=
  match reExecAll ci mode r subject with
  | [] => none
  | ms => some (ms.map (·.matched))

/-- `s.replace(/\s/g, '')`. -/
def removeSpaces (s : String) : String :=
  String.mk (s.data.filter (fun c => !jsIsSpaceChar c))

/-- `s.replace(/[^\w]/g, '-')`. -/
def replaceNonWordHyphen (s : String) : String :=
  String.mk (s.data.map (fun c => if jsIsWordChar c then c else '-'))

/-- `s.replace(/[-]+/g, '-')` (the source writes the class without brackets). -/
def collapseHyphens (s : String) : String :=
  String.mk (go none s.data)
where
  go : Option Char → List Char → List Char
  | _, [] => []
  | prev, c :: rest =>
    if c = '-' && prev = some '-' then go (some c) rest
    else c :: go (some c) rest

/-- `s.replace(/\s+/g, ' ')`. -/
def collapseWhitespace (s : String) : String :=
  String.mk (go none s.data)
where
  go : Option Char → List Char → List Char
  | _, [] => []
  | prev, c :: rest =>
    if jsIsSpaceChar c then
      if (prev.map jsIsSpaceChar).getD false then go (some c) rest
      else ' ' :: go (some c) rest
    else c :: go (some c) rest

/-! ## `apiFlowUtils.ts` — route discovery

A scanned project is modelled as the list of `(relative path, contents)`
pairs that `getGoFilesRecursive` + `readFileSync` deliver to the route
discoverer (`relativePath = filePath.replace(projectPath, '').substring(1)`). -/

/-- A scanned project as the analysis passes see it after file discovery and
reading: the list of `(relative path, contents)` pairs. -/
abbrev GoProject := List (String × String)

namespace ApiFlowUtils

/-- `interface APIRoute` from `apiFlowUtils.ts`. -/
structure APIRoute where
  id : String
  method : String
  path : String
  handler : String
  handlerFile : String
  handlerLine : Nat
  middleware : Option (List String) := none
  codeSnippet : Option String := none
  deriving DecidableEq, Repr

/-- Source regex: `/(\w+)\.Handle\("([^"]+)",\s*([^)]+)\)(?:\.Methods\("([^"]+)"\))?/g` -/
def muxHandleRE : RE :=
  reCat [RE.group 1 rWordPlus, RE.lit ".Handle(\"", RE.group 2 (rNotPlus '"'),
    RE.lit "\",", rWsStar, RE.group 3 (rNotPlus ')'), RE.lit ")",
    RE.opt (reCat [RE.lit ".Methods(\"", RE.group 4 (rNotPlus '"'), RE.lit "\")"])]

/-- Source regex: `/(\w+)\.HandleFunc\("([^"]+)",\s*([^)]+)\)(?:\.Methods\("([^"]+)"\))?/g` -/
def muxHandleFuncRE : RE :=
  reCat [RE.group 1 rWordPlus, RE.lit ".HandleFunc(\"", RE.group 2 (rNotPlus '"'),
    RE.lit "\",", rWsStar, RE.group 3 (rNotPlus ')'), RE.lit ")",
    RE.opt (reCat [RE.lit ".Methods(\"", RE.group 4 (rNotPlus '"'), RE.lit "\")"])]

/-- Source regex: `/(\w+)\.PathPrefix\("([^"]+)"\)\.Subrouter\(\)/g` -/
def muxPathPrefixRE : RE :=
  reCat [RE.group 1 rWordPlus, RE.lit ".PathPrefix(\"", RE.group 2 (rNotPlus '"'),
    RE.lit "\").Subrouter()"]

/-- `GET|POST|PUT|DELETE|PATCH` -/
def upperVerbsRE : RE := reLitAlts ["GET", "POST", "PUT", "DELETE", "PATCH"]

/-- `Get|Post|Put|Delete|Patch` -/
def titleVerbsRE : RE := reLitAlts ["Get", "Post", "Put", "Delete", "Patch"]

/-- Source regex: `/(\w+)\.(GET|POST|PUT|DELETE|PATCH)\("([^"]+)",\s*([^)]+)\)/g` -/
def ginVerbRE : RE :=
  reCat [RE.group 1 rWordPlus, RE.lit ".", RE.group 2 upperVerbsRE, RE.lit "(\"",
    RE.group 3 (rNotPlus '"'), RE.lit "\",", rWsStar, RE.group 4 (rNotPlus ')'), RE.lit ")"]

/-- Source regex: `/(\w+)\.Handle\("(GET|POST|PUT|DELETE|PATCH)",\s*"([^"]+)",\s*([^)]+)\)/g` -/
def ginHandleRE : RE :=
  reCat [RE.group 1 rWordPlus, RE.lit ".Handle(\"", RE.group 2 upperVerbsRE,
    RE.lit "\",", rWsStar, RE.lit "\"", RE.group 3 (rNotPlus '"'), RE.lit "\",", rWsStar,
    RE.group 4 (rNotPlus ')'), RE.lit ")"]

/-- Echo pattern, textually identical to `ginVerbRE` in the source. -/
def echoVerbRE : RE := ginVerbRE

/-- Source regex: `/(\w+)\.(Get|Post|Put|Delete|Patch)\("([^"]+)",\s*([^)]+)\)/g` -/
def chiVerbRE : RE :=
  reCat [RE.group 1 rWordPlus, RE.lit ".", RE.group 2 titleVerbsRE, RE.lit "(\"",
    RE.group 3 (rNotPlus '"'), RE.lit "\",", rWsStar, RE.group 4 (rNotPlus ')'), RE.lit ")"]

/-- Source regex: `/http\.HandleFunc\("([^"]+)",\s*([^)]+)\)/g` -/
def httpHandleFuncRE : RE :=
  reCat [RE.lit "http.HandleFunc(\"", RE.group 1 (rNotPlus '"'), RE.lit "\",", rWsStar,
    RE.group 2 (rNotPlus ')'), RE.lit ")"]

/-- Source regex: `/mux\.HandleFunc\("([^"]+)",\s*([^)]+)\)/g` -/
def muxBareHandleFuncRE : RE :=
  reCat [RE.lit "mux.HandleFunc(\"", RE.group 1 (rNotPlus '"'), RE.lit "\",", rWsStar,
    RE.group 2 (rNotPlus ')'), RE.lit ")"]

/-- The ordered pattern battery of `discoverRoutesInFile` (mux, gin, echo,
chi, std-http families, in source order), tagged with the framework type
that the dispatcher switches on. -/
def allPatterns : List (RE × String) :=
  [(muxHandleRE, "mux"), (muxHandleFuncRE, "mux"), (muxPathPrefixRE, "mux"),
   (ginVerbRE, "gin"), (ginHandleRE, "gin"),
   (echoVerbRE, "echo"),
   (chiVerbRE, "chi"),
   (httpHandleFuncRE, "http"), (muxBareHandleFuncRE, "http")]

/-- `generateStableRouteId` from `apiFlowUtils.ts`. -/
def generateStableRouteId (method path handler file : String) (line : Nat) : String :=
  let cleanMethod := jsToLower method
  let cleanPath := replaceNonWordHyphen path
  let cleanHandler := replaceNonWordHyphen handler
  let cleanFile := replaceNonWordHyphen file
  collapseHyphens
    (cleanMethod ++ "-" ++ cleanPath ++ "-" ++ cleanHandler ++ "-" ++ cleanFile ++ "-" ++
      toString line)

/-- `cleanPath` from `apiFlowUtils.ts`:
`path.replace(/^\/*/, '/').replace(/\/$/, '') || '/'`. -/
def cleanPath (path : String) : String :=
  let t := "/" ++ String.mk (path.data.dropWhile (fun c => c = '/'))
  let u := if jsEndsWith t "/" then jsSubstring t 0 (t.length - 1) else t
  jsOr u "/"

/-- The `gin`/`echo`/`chi` arm of `parseRouteMatch`:
`match[2] || match[1].split('.')[1]?.toUpperCase() || 'GET'`. -/
def ginMethodOf (m : RExec) : String :=
  jsOrOpt (capGet m.caps 2)
    (jsOrOpt (((jsSplit ((capGet m.caps 1).getD "") '.').get? 1).map jsToUpper) "GET")

/-- `parseRouteMatch` from `apiFlowUtils.ts`. -/
def parseRouteMatch (m : RExec) (frameworkType : String) (content : String)
    (relativePath : String) (lines : List String) : Option APIRoute :=
  let mph : Option (String × String × String) :=
    if frameworkType = "mux" then
      some (jsOrOpt (capGet m.caps 4) "ALL", (capGet m.caps 2).getD "",
        (capGet m.caps 3).getD "")
    else if frameworkType = "gin" || frameworkType = "echo" || frameworkType = "chi" then
      some (ginMethodOf m, (capGet m.caps 3).getD "", (capGet m.caps 4).getD "")
    else if frameworkType = "http" then
      some ("ALL", (capGet m.caps 1).getD "", (capGet m.caps 2).getD "")
    else none
  match mph with
  | none => none
  | some (method, path, handler) =>
    let beforeMatch := jsSubstring content 0 m.index
    let lineNumber := (jsSplit beforeMatch '\n').length
    let handlerName := jsOr ((jsSplit (removeSpaces handler) '.').getLast?.getD "") handler
    let routeId := generateStableRouteId method path handlerName relativePath lineNumber
    let codeSnippet :=
      if 0 < lineNumber && lineNumber ≤ lines.length then
        let snip := jsTrim (lines.getD (lineNumber - 1) "")
        if snip.length < 20 && lineNumber < lines.length then
          let contextLines :=
            (lines.drop (lineNumber - 1)).take (min (lineNumber + 2) lines.length - (lineNumber - 1))
          jsTrim (collapseWhitespace (String.intercalate " " contextLines))
        else snip
      else ""
    some { id := routeId, method := jsToUpper method, path := cleanPath path,
           handler := handlerName, handlerFile := relativePath, handlerLine := lineNumber,
           codeSnippet := some codeSnippet }

/-- `discoverRoutesInFile` from `apiFlowUtils.ts`: run every pattern family
over the whole file text and dispatch each match through `parseRouteMatch`. -/
def discoverRoutesInFile (content : String) (_filePath relativePath _packageName : String) :
    List APIRoute :=
  let lines := jsSplit content '\n'
  allPatterns.flatMap (fun pt =>
    (reExecAll false AnchorMode.free pt.1 content).filterMap
      (fun m => parseRouteMatch m pt.2 content relativePath lines))

/-- Source regex: `/^package\s+(\w+)/m` -/
def packageRE : RE := reCat [RE.lit "package", rWsPlus, RE.group 1 rWordPlus]

/-- `content.match(/^package\s+(\w+)/m)` with the `'main'` fallback. -/
def packageNameOf (content : String) : String :=
  match reSearch false AnchorMode.multiline packageRE content with
  | some m => (capGet m.caps 1).getD "main"
  | none => "main"

/-- The per-file accumulation loop of `discoverAPIRoutesInternal` (before
deduplication). -/
def routesRawOfProject (projectPath : String) (files : GoProject) : List APIRoute :=
  files.flatMap (fun fp =>
    discoverRoutesInFile fp.2 (projectPath ++ "/" ++ fp.1) fp.1 (packageNameOf fp.2))

/-- The key of the dedup comparison:
`(r) => r.method === route.method && r.path === route.path`. -/
def sameRouteKey (route r : APIRoute) : Bool :=
  r.method == route.method && r.path == route.path

/-- The final filter of `discoverAPIRoutesInternal`:
`routes.filter((route, index, self) => index === self.findIndex(…))`. -/
def dedupRoutes (routes : List APIRoute) : List APIRoute :=
  ((enumFrom 0 routes).filter
    (fun ir => jsFindIndex (sameRouteKey ir.2) routes == some ir.1)).map (·.2)

/-- `discoverAPIRoutesInternal` from `apiFlowUtils.ts`. -/
def discoverAPIRoutesInternal (projectPath : String) (files : GoProject) : List APIRoute :=
  dedupRoutes (routesRawOfProject projectPath files)

end ApiFlowUtils

/-! ## Directory trees and recursive source-file discovery

`readdirSync(dir, { withFileTypes: true })` is modelled by an explicit tree
of named entries.  The walkers below mirror `getGoFiles` (`goUtils.ts`) and
`getGoFilesRecursive` (`apiFlowUtils.ts`); `join(dir, name)` is modelled as
`dir ++ "/" ++ name`.  (Both walkers swallow unreadable directories; the
model treats every listed directory as readable.) -/

/-- One entry of a directory listing. -/
inductive FSEntry where
  | file (name : String)
  | dir (name : String) (entries : List FSEntry)

/-- The file filter shared by both walkers:
`item.name.endsWith('.go') && !item.name.endsWith('_test.go')`. -/
def isGoSourceName (name : String) : Bool :=
  jsEndsWith name ".go" && !jsEndsWith name "_test.go"

namespace ApiFlowUtils

/-- `getGoFilesRecursive` from `apiFlowUtils.ts`: descends into directories
whose name does not start with `.` and is neither `vendor` nor
`node_modules`; collects `.go` files that are not `_test.go` files. -/
def getGoFilesRecursive (dir : String) : List FSEntry → List String
  | [] => []
  | FSEntry.dir name es :: rest =>
    (if !jsStartsWith name "." && name != "vendor" && name != "node_modules" then
      getGoFilesRecursive (dir ++ "/" ++ name) es
    else []) ++ getGoFilesRecursive dir rest
  | FSEntry.file name :: rest =>
    (if isGoSourceName name then [dir ++ "/" ++ name] else []) ++
      getGoFilesRecursive dir rest

end ApiFlowUtils

/-! ## `goUtils.ts` — call-graph builder and symbol resolver -/

namespace GoUtils

/-- `getGoFiles` from `goUtils.ts`: like `getGoFilesRecursive` but its
directory filter is only `!item.name.startsWith('.') && item.name !== 'vendor'`. -/
def getGoFiles (dir : String) : List FSEntry → List String
  | [] => []
  | FSEntry.dir name es :: rest =>
    (if !jsStartsWith name "." && name != "vendor" then
      getGoFiles (dir ++ "/" ++ name) es
    else []) ++ getGoFiles dir rest
  | FSEntry.file name :: rest =>
    (if isGoSourceName name then [dir ++ "/" ++ name] else []) ++ getGoFiles dir rest

/-- `interface FunctionDef` from `goUtils.ts`. -/
structure FunctionDef where
  name : String
  file : String
  line : Nat
  package : String
  params : List String
  returns : List String
  deriving DecidableEq, Repr

/-- `interface FunctionCall` from `goUtils.ts`; `calledFile`/`calledLine`
are absent until `resolveCallTargets` fills them in. -/
structure FunctionCall where
  callerFunc : String
  callerFile : String
  callerLine : Nat
  calledFunc : String
  calledFile : Option String := none
  calledLine : Option Nat := none
  package : String
  deriving DecidableEq, Repr

/-- `interface CallGraph` from `goUtils.ts`. -/
structure CallGraph where
  functions : List FunctionDef
  calls : List FunctionCall
  deriving DecidableEq, Repr

/-- `interface SymbolInfo` from `goUtils.ts` (`type` is one of `'function'`,
`'struct'`, `'interface'`, `'type'`, `'variable'`). -/
structure SymbolInfo where
  name : String
  type : String
  file : String
  line : Nat
  signature : String
  deriving DecidableEq, Repr

/-- Source regex (`extractFunctions`):
`/^func\s+(?:\([^)]*\)\s+)?(\w+)\s*\(([^)]*)\)(?:\s*\(([^)]*)\)|\s*(\w+(?:\[\w+\])?))?/gm` -/
def funcDeclRE : RE :=
  reCat [RE.lit "func", rWsPlus,
    RE.opt (reCat [RE.lit "(", rNotStar ')', RE.lit ")", rWsPlus]),
    RE.group 1 rWordPlus, rWsStar, RE.lit "(", RE.group 2 (rNotStar ')'), RE.lit ")",
    RE.opt (RE.alt
      (reCat [rWsStar, RE.lit "(", RE.group 3 (rNotStar ')'), RE.lit ")"])
      (reCat [rWsStar,
        RE.group 4 (reCat [rWordPlus, RE.opt (reCat [RE.lit "[", rWordPlus, RE.lit "]"])])]))]

/-- `extractFunctions` from `goUtils.ts`. -/
def extractFunctions (content filePath packageName : String) : List FunctionDef :=
  (reExecAll false AnchorMode.multiline funcDeclRE content).map (fun m =>
    let funcName := (capGet m.caps 1).getD ""
    let paramsStr := (capGet m.caps 2).getD ""
    let returnsStr := jsOrOpt (capGet m.caps 3) ((capGet m.caps 4).getD "")
    let lineNumber := (jsSplit (jsSubstring content 0 m.index) '\n').length
    let params := (((jsSplit paramsStr ',').map jsTrim).filter (fun p => p ≠ "")).map
      (fun p =>
        let parts := jsSplitWs p
        if parts.length > 1 then parts.headD "" else "param")
    let returns := ((jsSplit returnsStr ',').map jsTrim).filter (fun r => r ≠ "")
    { name := funcName, file := filePath, line := lineNumber, package := packageName,
      params := params, returns := returns })

/-- `isBuiltinOrKeyword` from `goUtils.ts`.  Note the final
`name.includes('.')`: every dotted callee is treated as builtin. -/
def isBuiltinOrKeyword (name : String) : Bool :=
  let builtins : List String :=
    ["make", "len", "cap", "append", "copy", "delete", "close", "panic", "recover",
     "print", "println", "new", "complex", "real", "imag", "min", "max",
     "if", "for", "switch", "select", "go", "defer", "return", "break", "continue",
     "fmt.Printf", "fmt.Println", "fmt.Print", "fmt.Sprintf", "log.Printf", "log.Println"]
  builtins.contains name ||
    jsStartsWith name "fmt." || jsStartsWith name "log." ||
    jsStartsWith name "strconv." || jsStartsWith name "strings." ||
    jsIncludes name "."

/-- Source regex (`extractFunctionCalls`, per line):
`/^func\s+(?:\([^)]*\)\s+)?(\w+)\s*\(/` -/
def funcLineRE : RE :=
  reCat [RE.lit "func", rWsPlus,
    RE.opt (reCat [RE.lit "(", rNotStar ')', RE.lit ")", rWsPlus]),
    RE.group 1 rWordPlus, rWsStar, RE.lit "("]

/-- Source regex (`extractFunctionCalls`, per line): `/(\w+(?:\.\w+)?)\s*\(/g` -/
def callSiteRE : RE :=
  reCat [RE.group 1 (reCat [rWordPlus, RE.opt (reCat [RE.lit ".", rWordPlus])]),
    rWsStar, RE.lit "("]

/-- The line loop of `extractFunctionCalls`: tracks the current enclosing
function (a function-signature line resets it and is otherwise skipped via
`continue`) and turns every retained call-shaped substring into a
`FunctionCall`. -/
def extractFunctionCallsLoop (filePath packageName : String) :
    List (Nat × String) → String → List FunctionCall
  | [], _ => []
  | (i, line) :: rest, currentFunction =>
    match reSearch false AnchorMode.start funcLineRE line with
    | some fm => extractFunctionCallsLoop filePath packageName rest ((capGet fm.caps 1).getD "")
    | none =>
      ((reExecAll false AnchorMode.free callSiteRE line).filterMap (fun cm =>
        let calledFunc := (capGet cm.caps 1).getD ""
        if isBuiltinOrKeyword calledFunc then none
        else some { callerFunc := currentFunction, callerFile := filePath,
                    callerLine := i + 1, calledFunc := calledFunc,
                    package := packageName })) ++
        extractFunctionCallsLoop filePath packageName rest currentFunction

/-- `extractFunctionCalls` from `goUtils.ts`. -/
def extractFunctionCalls (content filePath packageName : String) : List FunctionCall :=
  extractFunctionCallsLoop filePath packageName (enumFrom 0 (jsSplit content '\n')) ""

/-- JS `Map.set` (last set wins on lookup). -/
def jsMapSet (m : List (String × FunctionDef)) (k : String) (v : FunctionDef) :
    List (String × FunctionDef) :=
  (k, v) :: m.filter (fun p => p.1 ≠ k)

/-- JS `Map.get`. -/
def jsMapGet (m : List (String × FunctionDef)) (k : String) : Option FunctionDef :=
  (m.find? (fun p => p.1 == k)).map (·.2)

/-- The map-building pass of `resolveCallTargets`: each function is indexed
under `"package.name"` and under its bare `name`. -/
def buildFunctionMap (fns : List FunctionDef) : List (String × FunctionDef) :=
  fns.foldl (fun m func =>
    jsMapSet (jsMapSet m (func.package ++ "." ++ func.name) func) func.name func) []

/-- The per-edge body of the resolution loop of `resolveCallTargets`:
package-qualified lookup first, bare-name fallback; on a hit the edge is
annotated with the target location, otherwise left untouched. -/
def resolveCallOne (functionMap : List (String × FunctionDef)) (call : FunctionCall) :
    FunctionCall :=
  match (jsMapGet functionMap (call.package ++ "." ++ call.calledFunc)).orElse
      (fun _ => jsMapGet functionMap call.calledFunc) with
  | some targetFunc =>
    { call with calledFile := some targetFunc.file, calledLine := some targetFunc.line }
  | none => call

/-- `resolveCallTargets` from `goUtils.ts` (the in-place edge mutation is
modelled by returning the patched graph). -/
def resolveCallTargets (callGraph : CallGraph) : CallGraph :=
  let functionMap := buildFunctionMap callGraph.functions
  { callGraph with calls := callGraph.calls.map (resolveCallOne functionMap) }

/-- `path.normalize`; identity on the already-normal relative paths used in
the model. -/
def normalizePath (filePath : String) : String := filePath

/-- Source regex: `` func\s+SYM\s*\(([^)]*)\)(?:\s*\(([^)]*)\))? `` -/
def symFunc1RE (symbol : String) : RE :=
  reCat [RE.lit "func", rWsPlus, RE.lit symbol, rWsStar, RE.lit "(",
    RE.group 1 (rNotStar ')'), RE.lit ")",
    RE.opt (reCat [rWsStar, RE.lit "(", RE.group 2 (rNotStar ')'), RE.lit ")"])]

/-- Source regex: `` func\s+\([^)]*\)\s+SYM\s*\(([^)]*)\)(?:\s*\(([^)]*)\))? `` -/
def symFunc2RE (symbol : String) : RE :=
  reCat [RE.lit "func", rWsPlus, RE.lit "(", rNotStar ')', RE.lit ")", rWsPlus,
    RE.lit symbol, rWsStar, RE.lit "(", RE.group 1 (rNotStar ')'), RE.lit ")",
    RE.opt (reCat [rWsStar, RE.lit "(", RE.group 2 (rNotStar ')'), RE.lit ")"])]

/-- Source regex: `` func\s+\([^)]*\s+\*?\w+\)\s+SYM\s*\(([^)]*)\) `` -/
def symFunc3RE (symbol : String) : RE :=
  reCat [RE.lit "func", rWsPlus, RE.lit "(", rNotStar ')', rWsPlus,
    RE.opt (RE.lit "*"), rWordPlus, RE.lit ")", rWsPlus,
    RE.lit symbol, rWsStar, RE.lit "(", RE.group 1 (rNotStar ')'), RE.lit ")"]

/-- Source regex: `` type\s+SYM\s+struct `` -/
def symStructRE (symbol : String) : RE :=
  reCat [RE.lit "type", rWsPlus, RE.lit symbol, rWsPlus, RE.lit "struct"]

/-- Source regex: `` type\s+SYM\s+interface `` -/
def symInterfaceRE (symbol : String) : RE :=
  reCat [RE.lit "type", rWsPlus, RE.lit symbol, rWsPlus, RE.lit "interface"]

/-- Source regex: `` type\s+SYM\s+[^\s{]+ `` -/
def symTypeRE (symbol : String) : RE :=
  reCat [RE.lit "type", rWsPlus, RE.lit symbol, rWsPlus,
    RE.plus (RE.cls true [CharSpec.space, CharSpec.chr '\x7b'])]

/-- Source regex: `` const\s+SYM\s*[=:] `` -/
def symConst1RE (symbol : String) : RE :=
  reCat [RE.lit "const", rWsPlus, RE.lit symbol, rWsStar,
    RE.cls false [CharSpec.chr '=', CharSpec.chr ':']]

/-- Source regex: `` const\s*\([^)]*SYM[^)]*\) `` -/
def symConst2RE (symbol : String) : RE :=
  reCat [RE.lit "const", rWsStar, RE.lit "(", rNotStar ')', RE.lit symbol,
    rNotStar ')', RE.lit ")"]

/-- Source regex: `` var\s+SYM\s*[=:] `` -/
def symVar1RE (symbol : String) : RE :=
  reCat [RE.lit "var", rWsPlus, RE.lit symbol, rWsStar,
    RE.cls false [CharSpec.chr '=', CharSpec.chr ':']]

/-- Source regex: `` var\s*\([^)]*SYM[^)]*\) `` -/
def symVar2RE (symbol : String) : RE :=
  reCat [RE.lit "var", rWsStar, RE.lit "(", rNotStar ')', RE.lit symbol,
    rNotStar ')', RE.lit ")"]

/-- Source regex: `` SYM\s*:= `` -/
def symShortVarRE (symbol : String) : RE :=
  reCat [RE.lit symbol, rWsStar, RE.lit ":="]

/-- The per-line pattern battery of `findSymbolInProject`, in source order;
returns the `type` tag of the first matching classification. -/
def symbolKindInLine (symbol line : String) : Option String :=
  if reTest false AnchorMode.free (symFunc1RE symbol) line ||
      reTest false AnchorMode.free (symFunc2RE symbol) line ||
      reTest false AnchorMode.free (symFunc3RE symbol) line then
    some "function"
  else if reTest false AnchorMode.free (symStructRE symbol) line then some "struct"
  else if reTest false AnchorMode.free (symInterfaceRE symbol) line then some "interface"
  else if reTest false AnchorMode.free (symTypeRE symbol) line then some "type"
  else if reTest false AnchorMode.free (symConst1RE symbol) line ||
      reTest false AnchorMode.free (symConst2RE symbol) line then
    some "variable"
  else if reTest false AnchorMode.free (symVar1RE symbol) line ||
      reTest false AnchorMode.free (symVar2RE symbol) line then
    some "variable"
  else if reTest false AnchorMode.free (symShortVarRE symbol) line then some "variable"
  else none

/-- The inner line loop of `findSymbolInProject`. -/
def findSymbolInLines (symbol file : String) : List (Nat × String) → Option SymbolInfo
  | [] => none
  | (i, line) :: rest =>
    match symbolKindInLine symbol line with
    | some kind =>
      some { name := symbol, type := kind, file := file, line := i + 1,
             signature := jsTrim line }
    | none => findSymbolInLines symbol file rest

/-- `findSymbolInProject` from `goUtils.ts` over the `(path, contents)` list
that `getGoFiles` + `readFileSync` deliver; first match (depth-first by
file, then by line) wins. -/
def findSymbolInProject (files : GoProject) (symbol : String) : Option SymbolInfo :=
  match files with
  | [] => none
  | (path, content) :: rest =>
    match findSymbolInLines symbol (normalizePath path)
        (enumFrom 0 (jsSplit content '\n')) with
    | some info => some info
    | none => findSymbolInProject rest symbol

end GoUtils

/-! ## `astParser.ts` — declaration extractor

`readFileSync` may fail here, so the file system is modelled as a partial
map from path to contents; an absent entry makes the read throw, which the
embedding renders as `Except.error`.  All the parsing passes after a
successful read are total, so the `try`/`catch` inside `parseFile` (which
returns the partially-filled structure on a parse exception) can never take
its `catch` arm in the model. -/

/-- File system for `readFileSync`: `none` means the read throws. -/
abbrev FileSys := List (String × Option String)

/-- `readFileSync(path, 'utf-8')` as a partial lookup. -/
def readFileSync (fs : FileSys) (path : String) : Option String :=
  match fs.find? (fun p => p.1 == path) with
  | some pr => pr.2
  | none => none

namespace AstParser

/-- `interface ImportDeclaration`. -/
structure ImportDeclaration where
  path : String
  line : Nat
  codeSnippet : String
  deriving DecidableEq, Repr

/-- `interface TypeDeclaration`. -/
structure TypeDeclaration where
  name : String
  type : String
  line : Nat
  codeSnippet : String
  comments : List String
  deriving DecidableEq, Repr

/-- `interface ConstantDeclaration`. -/
structure ConstantDeclaration where
  name : String
  value : String
  line : Nat
  codeSnippet : String
  comments : List String
  deriving DecidableEq, Repr

/-- `interface VariableDeclaration`. -/
structure VariableDeclaration where
  name : String
  type : String
  line : Nat
  codeSnippet : String
  comments : List String
  deriving DecidableEq, Repr

/-- `interface Parameter`. -/
structure Parameter where
  name : String
  type : String
  deriving DecidableEq, Repr

/-- `interface FunctionDeclaration`. -/
structure FunctionDeclaration where
  name : String
  parameters : List Parameter
  returnType : String
  line : Nat
  codeSnippet : String
  comments : List String
  receiver : String
  deriving DecidableEq, Repr

/-- `interface StructField`. -/
structure StructField where
  name : String
  type : String
  tag : String
  comments : List String
  deriving DecidableEq, Repr

/-- `interface StructDeclaration`. -/
structure StructDeclaration where
  name : String
  fields : List StructField
  line : Nat
  codeSnippet : String
  comments : List String
  deriving DecidableEq, Repr

/-- `interface InterfaceMethod`. -/
structure InterfaceMethod where
  name : String
  parameters : List Parameter
  returnType : String
  comments : List String
  deriving DecidableEq, Repr

/-- `interface InterfaceDeclaration`. -/
structure InterfaceDeclaration where
  name : String
  methods : List InterfaceMethod
  line : Nat
  codeSnippet : String
  comments : List String
  deriving DecidableEq, Repr

/-- `interface Comment` (`type` is `'line'` or `'block'`). -/
structure Comment where
  text : String
  line : Nat
  type : String
  deriving DecidableEq, Repr

/-- `interface CodeStructure`. -/
structure CodeStructure where
  filePath : String
  packageName : String
  imports : List ImportDeclaration
  types : List TypeDeclaration
  constants : List ConstantDeclaration
  -- `variables` in the source; `variables` is reserved in Lean
  vars : List VariableDeclaration
  functions : List FunctionDeclaration
  structs : List StructDeclaration
  interfaces : List InterfaceDeclaration
  comments : List Comment
  deriving DecidableEq, Repr

/-- `interface ProjectSymbol`. -/
structure ProjectSymbol where
  name : String
  type : String
  file : String
  line : Nat
  deriving DecidableEq, Repr

/-- The `{ content, endIndex }` record returned by the block extractors. -/
structure Block where
  content : String
  endIndex : Nat
  deriving DecidableEq, Repr

/-- First index of `sub` in `s` (`s.indexOf(sub)`, `none` for `-1`). -/
def jsIndexOf (s sub : String) : Option Nat :=
  go s.data 0
where
  go : List Char → Nat → Option Nat
  | [], i => if sub.data = [] then some i else none
  | c :: cs, i =>
    if sub.data.isPrefixOf (c :: cs) then some i else go cs (i + 1)

/-- The inner `*/`-scan of `extractComments` (from line `i+1` on); returns
the accumulated text and the final `endIndex`. -/
def blockCommentScan : List (Nat × String) → String → Nat → (String × Nat)
  | [], text, fallbackEnd => (text, fallbackEnd)
  | (j, l) :: rest, text, fallbackEnd =>
    if jsIncludes l "*/" then
      (text ++ "\n" ++ jsSubstring l 0 ((jsIndexOf l "*/").getD 0), j)
    else blockCommentScan rest (text ++ "\n" ++ l) fallbackEnd

/-- The line loop of `extractComments` (fuelled because a block comment
jumps the index to its end line). -/
def extractCommentsLoop (lines : List String) : Nat → Nat → List Comment
  | 0, _ => []
  | fuel + 1, i =>
    if i < lines.length then
      let line := jsTrim (lines.getD i "")
      if jsStartsWith line "//" then
        { text := jsTrim (jsSubstringFrom line 2), line := i + 1, type := "line" } ::
          extractCommentsLoop lines fuel (i + 1)
      else if jsStartsWith line "/*" then
        let scanned := blockCommentScan (enumFrom (i + 1) (lines.drop (i + 1)))
          (jsSubstringFrom line 2) i
        { text := jsTrim scanned.1, line := i + 1, type := "block" } ::
          extractCommentsLoop lines fuel (scanned.2 + 1)
      else extractCommentsLoop lines fuel (i + 1)
    else []

/-- `ASTParser.extractComments`. -/
def extractComments (content : String) : List Comment :=
  let lines := jsSplit content '\n'
  extractCommentsLoop lines (lines.length + 1) 0

/-- `ASTParser.extractCommentsForLine`. -/
def extractCommentsForLine (content : String) (_lineNumber : Nat) : List String :=
  let lines := jsSplit content '\n'
  (enumFrom 0 lines).flatMap (fun il =>
    let line := jsTrim il.2
    (if il.1 = 0 && jsStartsWith line "//" then [jsTrim (jsSubstringFrom line 2)] else []) ++
      (if il.1 > 0 && jsStartsWith (jsTrim (lines.getD (il.1 - 1) "")) "//" then
        [jsTrim (jsSubstringFrom (jsTrim (lines.getD (il.1 - 1) "")) 2)]
      else []))

/-- The paren-counting loop of `extractImportBlock` (entered with
`braceCount = 1` after the `import (` line). -/
def importBlockLoop : List String → Nat → String → Nat → Block
  | [], _, content, i => ⟨content, i - 1⟩
  | line :: rest, bc, content, i =>
    if bc = 0 then ⟨content, i - 1⟩
    else
      let bc := bc + (if jsIncludes line "(" then 1 else 0) -
        (if jsIncludes line ")" then 1 else 0)
      importBlockLoop rest bc (content ++ "\n" ++ line) (i + 1)

/-- `ASTParser.extractImportBlock`. -/
def extractImportBlock (lines : List String) (startIndex : Nat) : Option Block :=
  let content := lines.getD startIndex ""
  if jsIncludes content "(" then
    some (importBlockLoop (lines.drop (startIndex + 1)) 1 content (startIndex + 1))
  else some ⟨content, startIndex⟩

/-- The brace-counting line loop shared (textually duplicated in the source)
by `extractTypeBlock` and `extractFunctionBlock`: per line, `braceCount` is
incremented once if the line *contains* a `{` and decremented once if it
contains a `}` — string or comment contents are not excluded, and multiple
braces on one line count once. -/
def braceBlockLoop : List String → Nat → String → Nat → Block
  | [], _, content, i => ⟨content, i - 1⟩
  | line :: rest, bc, content, i =>
    if bc = 0 then ⟨content, i - 1⟩
    else
      let bc := bc + (if jsIncludes line "\x7b" then 1 else 0) -
        (if jsIncludes line "\x7d" then 1 else 0)
      braceBlockLoop rest bc (content ++ "\n" ++ line) (i + 1)

/-- `ASTParser.extractTypeBlock`. -/
def extractTypeBlock (lines : List String) (startIndex : Nat) (_type : String) :
    Option Block :=
  let content := lines.getD startIndex ""
  if jsIncludes content "\x7b" then
    some (braceBlockLoop (lines.drop (startIndex + 1)) 1 content (startIndex + 1))
  else some ⟨content, startIndex⟩

/-- `ASTParser.extractFunctionBlock` (same body as `extractTypeBlock`). -/
def extractFunctionBlock (lines : List String) (startIndex : Nat) : Option Block :=
  let content := lines.getD startIndex ""
  if jsIncludes content "\x7b" then
    some (braceBlockLoop (lines.drop (startIndex + 1)) 1 content (startIndex + 1))
  else some ⟨content, startIndex⟩

/-- The `while (… && !lines[i].trim().startsWith(')'))` loop shared by
`extractConstBlock` and `extractVarBlock`. -/
def parenListLoop : List String → String → Nat → (String × Nat)
  | [], content, i => (content, i)
  | line :: rest, content, i =>
    if jsStartsWith (jsTrim line) ")" then (content ++ "\n" ++ line, i)
    else parenListLoop rest (content ++ "\n" ++ line) (i + 1)

/-- `ASTParser.extractConstBlock`. -/
def extractConstBlock (lines : List String) (startIndex : Nat) : Option Block :=
  let content := lines.getD startIndex ""
  if jsIncludes content "(" then
    let r := parenListLoop (lines.drop (startIndex + 1)) content (startIndex + 1)
    some ⟨r.1, r.2⟩
  else some ⟨content, startIndex⟩

/-- `ASTParser.extractVarBlock` (same body as `extractConstBlock`). -/
def extractVarBlock (lines : List String) (startIndex : Nat) : Option Block :=
  let content := lines.getD startIndex ""
  if jsIncludes content "(" then
    let r := parenListLoop (lines.drop (startIndex + 1)) content (startIndex + 1)
    some ⟨r.1, r.2⟩
  else some ⟨content, startIndex⟩

/-- Source regex (`parseImportBlock`):
`/import\s+(?:"([^"]+)"|`([^`]+)`|\(|([^"`\s]+)\s+"([^"]+)")/` -/
def importLineRE : RE :=
  reCat [RE.lit "import", rWsPlus,
    RE.alt (reCat [RE.lit "\"", RE.group 1 (rNotPlus '"'), RE.lit "\""])
      (RE.alt (reCat [RE.lit "\x60", RE.group 2 (rNotPlus '\x60'), RE.lit "\x60"])
        (RE.alt (RE.lit "(")
          (reCat [RE.group 3 (RE.plus
              (RE.cls true [CharSpec.chr '"', CharSpec.chr '\x60', CharSpec.space])),
            rWsPlus, RE.lit "\"", RE.group 4 (rNotPlus '"'), RE.lit "\""])))]

/-- `ASTParser.parseImportBlock`. -/
def parseImportBlock (block : Block) (startLine : Nat) : List ImportDeclaration :=
  (jsSplit block.content '\n').filterMap (fun line =>
    let trimmedLine := jsTrim line
    if trimmedLine = "" || trimmedLine = "(" || trimmedLine = ")" then none
    else
      match reSearch false AnchorMode.free importLineRE trimmedLine with
      | none => none
      | some m =>
        let path := jsOrOpt (capGet m.caps 1)
          (jsOrOpt (capGet m.caps 2) ((capGet m.caps 4).getD ""))
        if path ≠ "" then
          some { path := path, line := startLine, codeSnippet := trimmedLine }
        else none)

/-- Source regex: `/type\s+(\w+)\s+struct/` -/
def structNameRE : RE :=
  reCat [RE.lit "type", rWsPlus, RE.group 1 rWordPlus, rWsPlus, RE.lit "struct"]

/-- Source regex: `/^(\w+)\s+([^`]+)(?:\s+`([^`]+)`)?/` -/
def structFieldRE : RE :=
  reCat [RE.group 1 rWordPlus, rWsPlus,
    RE.group 2 (RE.plus (RE.cls true [CharSpec.chr '\x60'])),
    RE.opt (reCat [rWsPlus, RE.lit "\x60",
      RE.group 3 (RE.plus (RE.cls true [CharSpec.chr '\x60'])), RE.lit "\x60"])]

/-- `ASTParser.parseStruct`. -/
def parseStruct (block : Block) (startLine : Nat) : StructDeclaration :=
  let lines := jsSplit block.content '\n'
  let firstLine := jsTrim (lines.headD "")
  let name :=
    match reSearch false AnchorMode.free structNameRE firstLine with
    | some m => (capGet m.caps 1).getD "unknown"
    | none => "unknown"
  let body := (lines.drop 1).take (lines.length - 2)
  let acc := body.foldl (fun (acc : List StructField × List String) l =>
    let line := jsTrim l
    if line = "" || line = "\x7d" then acc
    else if jsStartsWith line "//" then
      (acc.1, acc.2 ++ [jsTrim (jsSubstringFrom line 2)])
    else
      match reSearch false AnchorMode.start structFieldRE line with
      | some m =>
        (acc.1 ++ [{ name := (capGet m.caps 1).getD "",
                     type := jsTrim ((capGet m.caps 2).getD ""),
                     tag := (capGet m.caps 3).getD "", comments := acc.2 }], [])
      | none => acc) ([], [])
  { name := name, fields := acc.1, line := startLine, codeSnippet := block.content,
    comments := extractCommentsForLine block.content startLine }

/-- Source regex: `/type\s+(\w+)\s+interface/` -/
def interfaceNameRE : RE :=
  reCat [RE.lit "type", rWsPlus, RE.group 1 rWordPlus, rWsPlus, RE.lit "interface"]

/-- Source regex: `/^(\w+)\(([^)]*)\)\s*(.*)/` -/
def interfaceMethodRE : RE :=
  reCat [RE.group 1 rWordPlus, RE.lit "(", RE.group 2 (rNotStar ')'), RE.lit ")",
    rWsStar, RE.group 3 rDotStar]

/-- Source regexes (`parseParameters`): `/^(\w+)\s+(\w+)/` and `/^(\w+)$/`. -/
def astParamPairRE : RE :=
  reCat [RE.group 1 rWordPlus, rWsPlus, RE.group 2 rWordPlus]

def astParamSingleRE : RE :=
  reCat [RE.group 1 rWordPlus, RE.eos]

/-- `ASTParser.parseParameters`. -/
def parseParameters (paramsStr : String) : List Parameter :=
  if jsTrim paramsStr = "" then []
  else
    (jsSplit paramsStr ',').filterMap (fun part =>
      let trimmed := jsTrim part
      if trimmed = "" then none
      else
        match reSearch false AnchorMode.start astParamPairRE trimmed with
        | some m =>
          some { name := (capGet m.caps 1).getD "", type := (capGet m.caps 2).getD "" }
        | none =>
          match reSearch false AnchorMode.start astParamSingleRE trimmed with
          | some m => some { name := "", type := (capGet m.caps 1).getD "" }
          | none => none)

/-- `ASTParser.parseInterface`. -/
def parseInterface (block : Block) (startLine : Nat) : InterfaceDeclaration :=
  let lines := jsSplit block.content '\n'
  let firstLine := jsTrim (lines.headD "")
  let name :=
    match reSearch false AnchorMode.free interfaceNameRE firstLine with
    | some m => (capGet m.caps 1).getD "unknown"
    | none => "unknown"
  let body := (lines.drop 1).take (lines.length - 2)
  let acc := body.foldl (fun (acc : List InterfaceMethod × List String) l =>
    let line := jsTrim l
    if line = "" || line = "\x7d" then acc
    else if jsStartsWith line "//" then
      (acc.1, acc.2 ++ [jsTrim (jsSubstringFrom line 2)])
    else
      match reSearch false AnchorMode.start interfaceMethodRE line with
      | some m =>
        (acc.1 ++ [{ name := (capGet m.caps 1).getD "",
                     parameters := parseParameters ((capGet m.caps 2).getD ""),
                     returnType := jsTrim (jsOrOpt (capGet m.caps 3) "void"),
                     comments := acc.2 }], [])
      | none => acc) ([], [])
  { name := name, methods := acc.1, line := startLine, codeSnippet := block.content,
    comments := extractCommentsForLine block.content startLine }

/-- Source regex: `/type\s+(\w+)\s+(\w+)/` -/
def typeDeclRE : RE :=
  reCat [RE.lit "type", rWsPlus, RE.group 1 rWordPlus, rWsPlus, RE.group 2 rWordPlus]

/-- `ASTParser.parseTypeDeclaration`. -/
def parseTypeDeclaration (line : String) (lineNumber : Nat) : Option TypeDeclaration :=
  match reSearch false AnchorMode.free typeDeclRE line with
  | some m =>
    some { name := (capGet m.caps 1).getD "", type := (capGet m.caps 2).getD "",
           line := lineNumber, codeSnippet := line,
           comments := extractCommentsForLine line lineNumber }
  | none => none

/-- Source regex: `/^(\w+)\s*=\s*(.+)/` -/
def constLineRE : RE :=
  reCat [RE.group 1 rWordPlus, rWsStar, RE.lit "=", rWsStar, RE.group 2 rDotPlus]

/-- `ASTParser.parseConstBlock`. -/
def parseConstBlock (block : Block) (startLine : Nat) : List ConstantDeclaration :=
  (jsSplit block.content '\n').filterMap (fun line =>
    let trimmedLine := jsTrim line
    if trimmedLine = "" || trimmedLine = "(" || trimmedLine = ")" then none
    else if jsStartsWith trimmedLine "const" then none
    else
      match reSearch false AnchorMode.start constLineRE trimmedLine with
      | some m =>
        some { name := (capGet m.caps 1).getD "",
               value := jsTrim ((capGet m.caps 2).getD ""), line := startLine,
               codeSnippet := trimmedLine,
               comments := extractCommentsForLine trimmedLine startLine }
      | none => none)

/-- Source regex: `/^(\w+)\s+(\w+)/` -/
def varLineRE : RE :=
  reCat [RE.group 1 rWordPlus, rWsPlus, RE.group 2 rWordPlus]

/-- `ASTParser.parseVarBlock`. -/
def parseVarBlock (block : Block) (startLine : Nat) : List VariableDeclaration :=
  (jsSplit block.content '\n').filterMap (fun line =>
    let trimmedLine := jsTrim line
    if trimmedLine = "" || trimmedLine = "(" || trimmedLine = ")" then none
    else if jsStartsWith trimmedLine "var" then none
    else
      match reSearch false AnchorMode.start varLineRE trimmedLine with
      | some m =>
        some { name := (capGet m.caps 1).getD "",
               type := (capGet m.caps 2).getD "", line := startLine,
               codeSnippet := trimmedLine,
               comments := extractCommentsForLine trimmedLine startLine }
      | none => none)

/-- Source regex: `/func\s+(?:\(([^)]+)\)\s+)?(\w+)\(([^)]*)\)\s*(.*)/` -/
def funcSigRE : RE :=
  reCat [RE.lit "func", rWsPlus,
    RE.opt (reCat [RE.lit "(", RE.group 1 (rNotPlus ')'), RE.lit ")", rWsPlus]),
    RE.group 2 rWordPlus, RE.lit "(", RE.group 3 (rNotStar ')'), RE.lit ")",
    rWsStar, RE.group 4 rDotStar]

/-- `ASTParser.parseFunction`. -/
def parseFunction (block : Block) (startLine : Nat) : FunctionDeclaration :=
  let lines := jsSplit block.content '\n'
  let firstLine := jsTrim (lines.headD "")
  match reSearch false AnchorMode.free funcSigRE firstLine with
  | none =>
    { name := "unknown", parameters := [], returnType := "void", line := startLine,
      codeSnippet := block.content, comments := [], receiver := "" }
  | some m =>
    let receiver := (capGet m.caps 1).getD ""
    let name := (capGet m.caps 2).getD ""
    let paramsStr := (capGet m.caps 3).getD ""
    let returnType := jsOrOpt (capGet m.caps 4) "void"
    { name := name, parameters := parseParameters paramsStr,
      returnType := jsTrim returnType, line := startLine,
      codeSnippet := block.content,
      comments := extractCommentsForLine block.content startLine,
      receiver := jsTrim receiver }

/-- Source regex (`parseGoContent`): `/^package\s+(\w+)/m` -/
def astPackageRE : RE := reCat [RE.lit "package", rWsPlus, RE.group 1 rWordPlus]

/-- The main statement-dispatch loop of `ASTParser.parseGoContent`
(fuelled because block extraction jumps the line index). -/
def parseGoLoop (lines : List String) : Nat → Nat → CodeStructure → CodeStructure
  | 0, _, st => st
  | fuel + 1, i, st =>
    if i < lines.length then
      let trimmedLine := jsTrim (lines.getD i "")
      let lineNumber := i + 1
      if jsStartsWith trimmedLine "import" then
        match extractImportBlock lines i with
        | some importBlock =>
          parseGoLoop lines fuel (importBlock.endIndex + 1)
            { st with imports := st.imports ++ parseImportBlock importBlock lineNumber }
        | none => parseGoLoop lines fuel (i + 1) st
      else if jsStartsWith trimmedLine "type" && jsIncludes trimmedLine "struct" then
        match extractTypeBlock lines i "struct" with
        | some structBlock =>
          parseGoLoop lines fuel (structBlock.endIndex + 1)
            { st with structs := st.structs ++ [parseStruct structBlock lineNumber] }
        | none => parseGoLoop lines fuel (i + 1) st
      else if jsStartsWith trimmedLine "type" && jsIncludes trimmedLine "interface" then
        match extractTypeBlock lines i "interface" with
        | some interfaceBlock =>
          parseGoLoop lines fuel (interfaceBlock.endIndex + 1)
            { st with interfaces :=
                st.interfaces ++ [parseInterface interfaceBlock lineNumber] }
        | none => parseGoLoop lines fuel (i + 1) st
      else if jsStartsWith trimmedLine "type" then
        match parseTypeDeclaration trimmedLine lineNumber with
        | some typeDef =>
          parseGoLoop lines fuel (i + 1) { st with types := st.types ++ [typeDef] }
        | none => parseGoLoop lines fuel (i + 1) st
      else if jsStartsWith trimmedLine "const" then
        match extractConstBlock lines i with
        | some constBlock =>
          parseGoLoop lines fuel (constBlock.endIndex + 1)
            { st with constants := st.constants ++ parseConstBlock constBlock lineNumber }
        | none => parseGoLoop lines fuel (i + 1) st
      else if jsStartsWith trimmedLine "var" then
        match extractVarBlock lines i with
        | some varBlock =>
          parseGoLoop lines fuel (varBlock.endIndex + 1)
            { st with vars := st.vars ++ parseVarBlock varBlock lineNumber }
        | none => parseGoLoop lines fuel (i + 1) st
      else if jsStartsWith trimmedLine "func" then
        match extractFunctionBlock lines i with
        | some funcBlock =>
          parseGoLoop lines fuel (funcBlock.endIndex + 1)
            { st with functions := st.functions ++ [parseFunction funcBlock lineNumber] }
        | none => parseGoLoop lines fuel (i + 1) st
      else parseGoLoop lines fuel (i + 1) st
    else st

/-- The all-empty `CodeStructure` that `parseFile` initialises. -/
def emptyStructure (relativePath : String) : CodeStructure :=
  { filePath := relativePath, packageName := "", imports := [], types := [],
    constants := [], vars := [], functions := [], structs := [],
    interfaces := [], comments := [] }

/-- `ASTParser.parseGoContent`. -/
def parseGoContent (content : String) (st : CodeStructure) : CodeStructure :=
  let lines := jsSplit content '\n'
  let st :=
    match reSearch false AnchorMode.multiline astPackageRE content with
    | some m => { st with packageName := (capGet m.caps 1).getD "" }
    | none => st
  parseGoLoop lines (lines.length + 1) 0 st

/-- `path.relative(projectPath, filePath)`, modelled for the in-scope case
where `filePath` lies under `projectPath`. -/
def relativeOf (projectPath filePath : String) : String :=
  if jsStartsWith filePath (projectPath ++ "/") then
    jsSubstringFrom filePath (projectPath.length + 1)
  else filePath

/-- `ASTParser.parseFile`.  The `readFileSync` call sits *before* the
`try`, so a failed read throws out of `parseFile` (`Except.error`); after a
successful read the embedded passes are total and the `catch` arm (which
would return the partially-filled structure) is unreachable. -/
def parseFile (fs : FileSys) (filePath projectPath : String) :
    Except String CodeStructure :=
  match readFileSync fs filePath with
  | none => Except.error ("ENOENT: no such file or directory, open " ++ filePath)
  | some content =>
    let st := emptyStructure (relativeOf projectPath filePath)
    Except.ok (parseGoContent content { st with comments := extractComments content })

/-- The `totalElements` record of the `ast:analyzeProject` handler. -/
structure ElementCounts where
  files : Nat
  imports : Nat
  types : Nat
  constants : Nat
  -- `variables` in the source; `variables` is reserved in Lean
  vars : Nat
  functions : Nat
  structs : Nat
  interfaces : Nat
  deriving DecidableEq, Repr

/-- `countTotalElements` from `astHandlers.ts`. -/
def countTotalElements (structures : List CodeStructure) : ElementCounts :=
  structures.foldl (fun c st =>
    { c with imports := c.imports + st.imports.length,
             types := c.types + st.types.length,
             constants := c.constants + st.constants.length,
             vars := c.vars + st.vars.length,
             functions := c.functions + st.functions.length,
             structs := c.structs + st.structs.length,
             interfaces := c.interfaces + st.interfaces.length })
    { files := structures.length, imports := 0, types := 0, constants := 0,
      vars := 0, functions := 0, structs := 0, interfaces := 0 }

/-- The successful payload of the `ast:analyzeProject` handler. -/
structure AnalyzeProjectOk where
  structures : List CodeStructure
  totalFiles : Nat
  totalElements : ElementCounts
  deriving DecidableEq, Repr

/-- The `for (const filePath of goFiles)` loop of `ast:analyzeProject`:
the whole loop runs inside one `try`, so the first throwing `parseFile`
aborts it. -/
def parseAllFiles (fs : FileSys) (projectPath : String) :
    List String → Except String (List CodeStructure)
  | [] => Except.ok []
  | f :: rest =>
    match parseFile fs f projectPath with
    | Except.error e => Except.error e
    | Except.ok st => (parseAllFiles fs projectPath rest).map (st :: ·)

/-- The `ast:analyzeProject` IPC handler from `astHandlers.ts`:
`Except.error` models the `{ success: false, error }` reply produced by its
`catch`. -/
def astAnalyzeProject (fs : FileSys) (goFiles : List String) (projectPath : String) :
    Except String AnalyzeProjectOk :=
  (parseAllFiles fs projectPath goFiles).map (fun structures =>
    { structures := structures, totalFiles := goFiles.length,
      totalElements := countTotalElements structures })

end AstParser

/-! ## `apiFlowUtils.ts` — data-flow tracer

The recursive walk `traceFunctionCalls` is embedded with an explicit fuel
parameter: `none` models the case where the recursion has not terminated
within the given depth budget, so any `some` result is a result the
unbounded original recursion reaches. -/

namespace ApiFlowUtils

/-- `interface DataFlowNode`'s `metadata` object. -/
structure NodeMetadata where
  parameters : Option (List String) := none
  returnType : Option String := none
  databaseQuery : Option String := none
  tableName : Option String := none
  dtoFields : Option (List String) := none
  deriving DecidableEq, Repr

/-- `interface DataFlowNode` (`type` ranges over `'route' | 'handler' |
'service' | 'dto' | 'repository' | 'database' | 'external'`). -/
structure DataFlowNode where
  id : String
  type : String
  name : String
  file : String
  line : Option Nat := none
  content : Option String := none
  metadata : Option NodeMetadata := none
  deriving DecidableEq, Repr

/-- `interface DataFlowEdge`. -/
structure DataFlowEdge where
  source : String
  target : String
  dataType : Option String := none
  transformation : Option String := none
  deriving DecidableEq, Repr

/-- One element of the list returned by `extractFunctionCallsFromFunction`. -/
structure CallInfo where
  functionName : String
  context : String
  line : Nat
  transformation : Option String
  deriving DecidableEq, Repr

/-- `readFileSync(join(projectPath, rel))` over the project model. -/
def readProjFile (files : GoProject) (rel : String) : Option String :=
  (files.find? (fun p => p.1 == rel)).map (·.2)

/-- The character scan of `extractFunctionBody`: walks the text from
`startIndex` tracking double-quote/backtick string state, line-comment
state and a brace counter; returns `(bodyStart, bodyEnd)` on the `}` that
balances the first `{`. -/
def extractFunctionBodyLoop :
    List Char → Nat → Option Char → Bool → Option Char → Bool → Int → Option Nat →
    Option (Nat × Nat)
  | [], _, _, _, _, _, _, _ => none
  | c :: cs, i, prev, inString, stringChar, inComment, braceCount, bodyStart =>
    if (c = '"' || c = '\x60') && !inComment then
      if !inString then
        extractFunctionBodyLoop cs (i + 1) (some c) true (some c) inComment braceCount
          bodyStart
      else if some c = stringChar && prev ≠ some '\\' then
        extractFunctionBodyLoop cs (i + 1) (some c) false none inComment braceCount
          bodyStart
      else
        extractFunctionBodyLoop cs (i + 1) (some c) inString stringChar inComment
          braceCount bodyStart
    else if !inString && c = '/' && cs.head? = some '/' then
      extractFunctionBodyLoop cs (i + 1) (some c) inString stringChar true braceCount
        bodyStart
    else if !inString && c = '\n' && inComment then
      extractFunctionBodyLoop cs (i + 1) (some c) inString stringChar false braceCount
        bodyStart
    else if !inString && !inComment then
      if c = '\x7b' then
        extractFunctionBodyLoop cs (i + 1) (some c) inString stringChar inComment
          (braceCount + 1) (if bodyStart = none then some i else bodyStart)
      else if c = '\x7d' then
        if braceCount - 1 = 0 then
          match bodyStart with
          | some bs => some (bs, i)
          | none => some (0, i)
        else
          extractFunctionBodyLoop cs (i + 1) (some c) inString stringChar inComment
            (braceCount - 1) bodyStart
      else
        extractFunctionBodyLoop cs (i + 1) (some c) inString stringChar inComment
          braceCount bodyStart
    else
      extractFunctionBodyLoop cs (i + 1) (some c) inString stringChar inComment
        braceCount bodyStart

/-- `extractFunctionBody` from `apiFlowUtils.ts` (string/comment-aware). -/
def extractFunctionBody (content : String) (startIndex : Nat) : String :=
  match extractFunctionBodyLoop (content.data.drop startIndex) startIndex
      ((content.data.take startIndex).getLast?) false none false 0 none with
  | some be => jsTrim (jsSubstring content (be.1 + 1) be.2)
  | none => ""

/-- `isBuiltinOrCommonPattern` from `apiFlowUtils.ts`. -/
def isBuiltinOrCommonPattern (funcName : String) : Bool :=
  let builtins : List String :=
    ["len", "cap", "make", "append", "copy", "delete", "close", "panic", "recover",
     "print", "println", "new", "complex", "real", "imag", "min", "max",
     "if", "for", "switch", "select", "go", "defer", "return", "break", "continue",
     "range"]
  let commonPatterns : List String :=
    ["fmt.", "log.", "strings.", "strconv.", "time.", "context.", "json.", "http.",
     "url.", "regexp.", "sort.", "math."]
  builtins.contains funcName ||
    commonPatterns.any (fun pat => jsStartsWith funcName pat)

/-- `extractTransformation` from `apiFlowUtils.ts`. -/
def extractTransformation (line : String) : Option String :=
  if jsIncludes line "json.Marshal" || jsIncludes line "json.Unmarshal" then
    some "JSON Conversion"
  else if jsIncludes line "strconv." then some "Type Conversion"
  else if jsIncludes line "strings." then some "String Processing"
  else none

/-- Dynamic source regex: `` func\s+NAME\s*\([^)]*\) `` (used by
`extractFunctionCallsFromFunction` and `findFunctionDefinition`). -/
def funcDefSearchRE (functionName : String) : RE :=
  reCat [RE.lit "func", rWsPlus, RE.lit functionName, rWsStar, RE.lit "(",
    rNotStar ')', RE.lit ")"]

/-- Source regex: `/(\w+(?:\.\w+)*)\s*\(/g` -/
def callSiteMultiRE : RE :=
  reCat [RE.group 1 (reCat [rWordPlus, RE.star (reCat [RE.lit ".", rWordPlus])]),
    rWsStar, RE.lit "("]

/-- `extractFunctionCallsFromFunction` from `apiFlowUtils.ts`. -/
def extractFunctionCallsFromFunction (content functionName : String) : List CallInfo :=
  match reSearch false AnchorMode.free (funcDefSearchRE functionName) content with
  | none => []
  | some m =>
    let functionBody := extractFunctionBody content m.index
    (enumFrom 0 (jsSplit functionBody '\n')).flatMap (fun il =>
      (reExecAll false AnchorMode.free callSiteMultiRE il.2).filterMap (fun cm =>
        let funcCall := (capGet cm.caps 1).getD ""
        if isBuiltinOrCommonPattern funcCall then none
        else
          some { functionName := funcCall, context := jsTrim il.2, line := il.1 + 1,
                 transformation := extractTransformation il.2 }))

/-- `determineNodeType` from `apiFlowUtils.ts` (the ordered keyword
heuristics: dto, then database, then repository, then external, else
service). -/
def determineNodeType (functionName context : String) : String :=
  let lowerFunc := jsToLower functionName
  let lowerContext := jsToLower context
  if jsIncludes lowerFunc "dto" || jsIncludes lowerFunc "model" ||
      jsIncludes lowerFunc "request" || jsIncludes lowerFunc "response" ||
      jsIncludes lowerContext "json.marshal" || jsIncludes lowerContext "json.unmarshal" then
    "dto"
  else if jsIncludes lowerFunc "db" || jsIncludes lowerFunc "query" ||
      jsIncludes lowerFunc "exec" || jsIncludes lowerFunc "scan" ||
      jsIncludes lowerContext "select" || jsIncludes lowerContext "insert" ||
      jsIncludes lowerContext "update" || jsIncludes lowerContext "delete" then
    "database"
  else if jsIncludes lowerFunc "repo" || jsIncludes lowerFunc "repository" ||
      jsIncludes lowerFunc "find" || jsIncludes lowerFunc "save" ||
      jsIncludes lowerFunc "get" || jsIncludes lowerFunc "create" then
    "repository"
  else if jsIncludes lowerFunc "http" || jsIncludes lowerFunc "client" ||
      jsIncludes lowerFunc "api" || jsIncludes lowerContext "http.get" ||
      jsIncludes lowerContext "http.post" then
    "external"
  else "service"

/-- `parseParameters` from `apiFlowUtils.ts` (distinct from the
`astParser.ts` function of the same name). -/
def parseParameters (paramStr : String) : List String :=
  if jsTrim paramStr = "" then []
  else
    (((jsSplit paramStr ',').map (fun p =>
      let parts := jsSplitWs (jsTrim p)
      jsOr (parts.headD "") (jsTrim p))).filter (fun p => p ≠ ""))

/-- Source regex: `/\{([^}]+)\}/g` (path parameters). -/
def routeParamRE : RE :=
  reCat [RE.lit "\x7b", RE.group 1 (rNotPlus '\x7d'), RE.lit "\x7d"]

/-- `extractRouteParameters` from `apiFlowUtils.ts`. -/
def extractRouteParameters (path : String) : List String :=
  match jsMatchG false AnchorMode.free routeParamRE path with
  | none => []
  | some ms => ms.map (fun p =>
      String.mk (p.data.filter (fun c => c ≠ '\x7b' && c ≠ '\x7d')))

/-- Source regex: `/\(([^)]*)\)/` (first parenthesised argument list). -/
def callParamsRE : RE :=
  reCat [RE.lit "(", RE.group 1 (rNotStar ')'), RE.lit ")"]

/-- `extractParametersFromCall` from `apiFlowUtils.ts`. -/
def extractParametersFromCall (context : String) : List String :=
  match reSearch false AnchorMode.free callParamsRE context with
  | none => []
  | some m =>
    (((jsSplit ((capGet m.caps 1).getD "") ',').map jsTrim).filter (fun p => p ≠ ""))

/-- Source regex: `/type\s+\w+\s+struct\s*\{([^}]+)\}/s` -/
def dtoStructRE : RE :=
  reCat [RE.lit "type", rWsPlus, rWordPlus, rWsPlus, RE.lit "struct", rWsStar,
    RE.lit "\x7b", RE.group 1 (rNotPlus '\x7d'), RE.lit "\x7d"]

/-- `extractDTOFields` from `apiFlowUtils.ts`. -/
def extractDTOFields (content : String) : String :=
  match reSearch false AnchorMode.free dtoStructRE content with
  | some m => jsTrim ((capGet m.caps 1).getD "")
  | none => String.intercalate "\n" ((jsSplit content '\n').take 10)

/-- Source regex: `/^(\w+)\s+/` (field name, per struct body line). -/
def dtoFieldNameRE : RE := reCat [RE.group 1 rWordPlus, rWsPlus]

/-- `extractDTOFieldNames` from `apiFlowUtils.ts`. -/
def extractDTOFieldNames (content : String) : List String :=
  match reSearch false AnchorMode.free dtoStructRE content with
  | none => []
  | some m =>
    (jsSplit ((capGet m.caps 1).getD "") '\n').filterMap (fun line =>
      match reSearch false AnchorMode.start dtoFieldNameRE (jsTrim line) with
      | some fm => capGet fm.caps 1
      | none => none)

/-- The SQL-literal patterns of `extractDatabaseQuery`
(`/"(SELECT[^"]+)"/gi` … and the backtick-quoted variants). -/
def dbQueryPatterns : List RE :=
  [reCat [RE.lit "\"", RE.group 1 (reCat [RE.lit "SELECT", rNotPlus '"']), RE.lit "\""],
   reCat [RE.lit "\"", RE.group 1 (reCat [RE.lit "INSERT", rNotPlus '"']), RE.lit "\""],
   reCat [RE.lit "\"", RE.group 1 (reCat [RE.lit "UPDATE", rNotPlus '"']), RE.lit "\""],
   reCat [RE.lit "\"", RE.group 1 (reCat [RE.lit "DELETE", rNotPlus '"']), RE.lit "\""],
   reCat [RE.lit "\x60", RE.group 1 (reCat [RE.lit "SELECT", rNotPlus '\x60']), RE.lit "\x60"],
   reCat [RE.lit "\x60", RE.group 1 (reCat [RE.lit "INSERT", rNotPlus '\x60']), RE.lit "\x60"],
   reCat [RE.lit "\x60", RE.group 1 (reCat [RE.lit "UPDATE", rNotPlus '\x60']), RE.lit "\x60"],
   reCat [RE.lit "\x60", RE.group 1 (reCat [RE.lit "DELETE", rNotPlus '\x60']), RE.lit "\x60"]]

/-- `extractDatabaseQuery` from `apiFlowUtils.ts`.  The source evaluates
`content.match(pattern)[1]` on a *global* regex, i.e. the second full match
— `none` models the `undefined` this produces when the first matching
pattern has exactly one occurrence. -/
def extractDatabaseQuery (content : String) : Option String :=
  go dbQueryPatterns
where
  go : List RE → Option String
  | [] => some (jsSubstring content 0 100 ++ "...")
  | p :: rest =>
    match jsMatchG true AnchorMode.free p content with
    | some ms => ms.get? 1
    | none => go rest

/-- The patterns of `extractTableName` (`/FROM\s+(\w+)/i` …). -/
def tableNamePatterns : List RE :=
  [reCat [RE.lit "FROM", rWsPlus, RE.group 1 rWordPlus],
   reCat [RE.lit "INSERT", rWsPlus, RE.lit "INTO", rWsPlus, RE.group 1 rWordPlus],
   reCat [RE.lit "UPDATE", rWsPlus, RE.group 1 rWordPlus],
   reCat [RE.lit "DELETE", rWsPlus, RE.lit "FROM", rWsPlus, RE.group 1 rWordPlus]]

/-- `extractTableName` from `apiFlowUtils.ts`. -/
def extractTableName (query : String) : Option String :=
  go tableNamePatterns
where
  go : List RE → Option String
  | [] => none
  | p :: rest =>
    match reSearch true AnchorMode.free p query with
    | some m => capGet m.caps 1
    | none => go rest

/-- `inferDataType` from `apiFlowUtils.ts`. -/
def inferDataType (context : String) : String :=
  let lower := jsToLower context
  if jsIncludes lower "json" || jsIncludes lower "marshal" || jsIncludes lower "unmarshal" then
    "JSON"
  else if jsIncludes lower "xml" then "XML"
  else if jsIncludes lower "string" || jsIncludes lower "text" then "String"
  else if jsIncludes lower "int" || jsIncludes lower "number" then "Number"
  else if jsIncludes lower "bool" then "Boolean"
  else if jsIncludes lower "slice" || jsIncludes lower "array" then "Array"
  else "Data"

/-- The `{ file, line, content }` result of `findFunctionDefinition`. -/
structure FunctionLocation where
  file : String
  line : Nat
  content : String
  deriving DecidableEq, Repr

/-- `findFunctionDefinition` from `apiFlowUtils.ts`: first project file
whose text matches `` func\s+NAME\s*\([^)]*\) `` wins. -/
def findFunctionDefinition (files : GoProject) (functionName : String) :
    Option FunctionLocation :=
  match files with
  | [] => none
  | fp :: rest =>
    match reSearch false AnchorMode.free (funcDefSearchRE functionName) fp.2 with
    | some m =>
      some { file := fp.1,
             line := (jsSplit (jsSubstring fp.2 0 m.index) '\n').length,
             content := extractFunctionBody fp.2 m.index }
    | none => findFunctionDefinition rest functionName

/-- `createNodeForFunction` from `apiFlowUtils.ts`.  Every code path of the
original returns a node, so the embedding is total.  In the `database`
branch, when `extractDatabaseQuery` yields `undefined`, the original throws
inside `extractTableName` and its `catch` falls through to the fallback
node; the `none` case models that. -/
def createNodeForFunction (files : GoProject) (call : CallInfo) (nodeType : String)
    (nodeId : String) : DataFlowNode :=
  if nodeType = "external" || jsIncludes call.functionName "." then
    { id := nodeId, type := nodeType, name := call.functionName, file := "external",
      content := some call.context,
      metadata := some { parameters := some (extractParametersFromCall call.context) } }
  else
    match findFunctionDefinition files call.functionName with
    | some functionDef =>
      if nodeType = "dto" then
        { id := nodeId, type := nodeType, name := call.functionName,
          file := functionDef.file, line := some functionDef.line,
          content := some (extractDTOFields functionDef.content),
          metadata := some { dtoFields := some (extractDTOFieldNames functionDef.content) } }
      else if nodeType = "database" then
        match extractDatabaseQuery functionDef.content with
        | none =>
          { id := nodeId, type := nodeType, name := call.functionName,
            file := "unknown", content := some call.context }
        | some query =>
          { id := nodeId, type := nodeType, name := call.functionName,
            file := functionDef.file, line := some functionDef.line,
            content := some query,
            metadata := some { databaseQuery := some query,
                               tableName := extractTableName query } }
      else
        { id := nodeId, type := nodeType, name := call.functionName,
          file := functionDef.file, line := some functionDef.line,
          content := some (jsSubstring functionDef.content 0 150 ++ "..."),
          metadata := some {} }
    | none =>
      { id := nodeId, type := nodeType, name := call.functionName, file := "unknown",
        content := some call.context }

/-- Dynamic source regex (`traceHandlerFunction`):
`` func\s+H\s*\(([^)]*)\)(?:\s*\(([^)]*)\))? `` -/
def handlerFunc1RE (handler : String) : RE :=
  reCat [RE.lit "func", rWsPlus, RE.lit handler, rWsStar, RE.lit "(",
    RE.group 1 (rNotStar ')'), RE.lit ")",
    RE.opt (reCat [rWsStar, RE.lit "(", RE.group 2 (rNotStar ')'), RE.lit ")"])]

/-- Dynamic source regex (`traceHandlerFunction`, receiver form):
`` func\s+\([^)]*\)\s+H\s*\(([^)]*)\)(?:\s*\(([^)]*)\))? `` -/
def handlerFunc2RE (handler : String) : RE :=
  reCat [RE.lit "func", rWsPlus, RE.lit "(", rNotStar ')', RE.lit ")", rWsPlus,
    RE.lit handler, rWsStar, RE.lit "(", RE.group 1 (rNotStar ')'), RE.lit ")",
    RE.opt (reCat [rWsStar, RE.lit "(", RE.group 2 (rNotStar ')'), RE.lit ")"])]

/-- Dynamic source regex (`traceHandlerFunction`): `` var\s+H\s*= `` -/
def handlerVarRE (handler : String) : RE :=
  reCat [RE.lit "var", rWsPlus, RE.lit handler, rWsStar, RE.lit "="]

/-- The basic handler node returned when the file read fails or no pattern
matches. -/
def basicHandlerNode (route : APIRoute) : DataFlowNode :=
  { id := "handler-" ++ route.handler, type := "handler", name := route.handler,
    file := route.handlerFile, line := some route.handlerLine,
    content := some (jsOr (route.codeSnippet.getD "") ("Handler: " ++ route.handler)) }

/-- `traceHandlerFunction` from `apiFlowUtils.ts`; every code path of the
original returns a node (the `catch` and the no-match branch both build the
basic node). -/
def traceHandlerFunction (files : GoProject) (route : APIRoute) : DataFlowNode :=
  match readProjFile files route.handlerFile with
  | none => basicHandlerNode route
  | some content =>
    let m := (reSearch false AnchorMode.free (handlerFunc1RE route.handler) content).orElse
      (fun _ => (reSearch false AnchorMode.free (handlerFunc2RE route.handler) content).orElse
        (fun _ => reSearch false AnchorMode.free (handlerVarRE route.handler) content))
    match m with
    | none => basicHandlerNode route
    | some m =>
      let params := (capGet m.caps 1).getD ""
      let returns := (capGet m.caps 2).getD ""
      let lineNumber := (jsSplit (jsSubstring content 0 m.index) '\n').length
      let functionBody := extractFunctionBody content m.index
      let snippet := jsSubstring functionBody 0 300 ++
        (if functionBody.length > 300 then "..." else "")
      let codeSnippet :=
        if snippet.length < 20 then
          "func " ++ route.handler ++ "(" ++ params ++ ") " ++
            (if returns ≠ "" then "(" ++ returns ++ ")" else "")
        else snippet
      { id := "handler-" ++ route.handler, type := "handler", name := route.handler,
        file := route.handlerFile, line := some lineNumber,
        content := some codeSnippet,
        metadata := some { parameters := some (parseParameters params),
                           returnType := some returns } }

/-- The mutable `nodes`/`edges`/`processedFunctions` triple threaded through
the recursive trace. -/
structure TraceState where
  nodes : List DataFlowNode
  edges : List DataFlowEdge
  processed : List String
  deriving DecidableEq, Repr

mutual

/-- `traceFunctionCalls` from `apiFlowUtils.ts`.  `none` = the depth budget
`fuel` was exhausted before the recursion finished. -/
def traceFunctionCalls (files : GoProject) :
    Nat → String → String → TraceState → String → Option TraceState
  | 0, _, _, _, _ => none
  | fuel + 1, currentFile, functionName, st, sourceNodeId =>
    let funcKey := currentFile ++ ":" ++ functionName
    if st.processed.contains funcKey then some st
    else
      let st' := { st with processed := st.processed ++ [funcKey] }
      match readProjFile files currentFile with
      | none => some st'
      | some content =>
        traceCallsLoop files fuel
          (extractFunctionCallsFromFunction content functionName) st' sourceNodeId

/-- The `for (const call of functionCalls)` loop of `traceFunctionCalls`. -/
def traceCallsLoop (files : GoProject) :
    Nat → List CallInfo → TraceState → String → Option TraceState
  | 0, _, _, _ => none
  | _ + 1, [], st, _ => some st
  | fuel + 1, call :: rest, st, sourceNodeId =>
    let nodeType := determineNodeType call.functionName call.context
    let nodeId := nodeType ++ "-" ++ call.functionName ++ "-" ++ toString st.nodes.length
    match st.nodes.find? (fun n => n.name == call.functionName && n.type == nodeType) with
    | none =>
      let newNode := createNodeForFunction files call nodeType nodeId
      let st' : TraceState :=
        { st with nodes := st.nodes ++ [newNode],
                  edges := st.edges ++
                    [{ source := sourceNodeId, target := nodeId,
                       dataType := some (inferDataType call.context),
                       transformation := call.transformation }] }
      if newNode.file ≠ "" && !jsIncludes newNode.file "external" then
        match traceFunctionCalls files fuel newNode.file newNode.name st' nodeId with
        | none => none
        | some st'' => traceCallsLoop files fuel rest st'' sourceNodeId
      else traceCallsLoop files fuel rest st' sourceNodeId
    | some existingNode =>
      traceCallsLoop files fuel rest
        { st with edges := st.edges ++
            [{ source := sourceNodeId, target := existingNode.id,
               dataType := some (inferDataType call.context) }] }
        sourceNodeId

end

/-- The `{ nodes, edges }` graph returned by `traceCompleteDataFlow`. -/
structure FlowGraph where
  nodes : List DataFlowNode
  edges : List DataFlowEdge
  deriving DecidableEq, Repr

/-- `traceCompleteDataFlow` from `apiFlowUtils.ts`: route node, handler
node and edge, then the recursive trace from the handler. -/
def traceCompleteDataFlow (files : GoProject) (fuel : Nat) (targetRoute : APIRoute) :
    Option FlowGraph :=
  let routeNode : DataFlowNode :=
    { id := "route-" ++ targetRoute.id, type := "route",
      name := targetRoute.method ++ " " ++ targetRoute.path,
      file := targetRoute.handlerFile, line := some targetRoute.handlerLine,
      metadata := some { parameters := some (extractRouteParameters targetRoute.path) } }
  let handlerNode := traceHandlerFunction files targetRoute
  let st : TraceState :=
    { nodes := [routeNode, handlerNode],
      edges := [{ source := routeNode.id, target := handlerNode.id,
                  dataType := some "HTTP Request" }],
      processed := [] }
  (traceFunctionCalls files fuel handlerNode.file handlerNode.name st handlerNode.id).map
    (fun st' => { nodes := st'.nodes, edges := st'.edges })

end ApiFlowUtils

/-! ## Concrete inputs used in the claim analyses -/

namespace Examples

/-- A file system with one unreadable and one readable file. -/
def errFS : FileSys := [("p/bad.go", none), ("p/ok.go", some "package main\n")]

/-- The spec's end-to-end route registration line. -/
def routeContent : String := "mux.HandleFunc(\"/users\", GetUsersHandler).Methods(\"GET\")"

def routeProj : GoProject := [("main.go", routeContent)]

/-- A struct whose field line carries a `\x7d` inside a string (a Go tag). -/
def tagLines : List String :=
  ["type T struct \x7b", "A string \x60x\x7dy\x60", "\x7d"]

/-- Symbol-resolution file with the variable declaration before the struct. -/
def varFirstProj : GoProject := [("m.go", "var Foo = 1\ntype Foo struct \x7b\x7d")]

/-- Symbol-resolution file with the struct before the variable declaration. -/
def structFirstProj : GoProject := [("m.go", "type Foo struct \x7b\x7d\nvar Foo = 1")]

/-- The mutual-recursion project: the route's handler reaches `Alpha`, and
`Alpha` and `Beta` call each other. -/
def cycleContent : String :=
  "func HandleRoot() \x7b\n\tAlpha()\n\x7d\n\nfunc Alpha() \x7b\n\tBeta()\n\x7d\n\nfunc Beta() \x7b\n\tAlpha()\n\x7d\n"

def cycleProj : GoProject := [("app.go", cycleContent)]

def cycleRoute : ApiFlowUtils.APIRoute :=
  { id := "all-cyc-HandleRoot-app-go-1", method := "ALL", path := "/cyc",
    handler := "HandleRoot", handlerFile := "app.go", handlerLine := 1 }

/-- The graph the tracer produces on the mutual-recursion project. -/
def cycleGraph : ApiFlowUtils.FlowGraph :=
  (ApiFlowUtils.traceCompleteDataFlow cycleProj 10 cycleRoute).getD ⟨[], []⟩

/-- Dedup example: the same `(ALL, /a)` endpoint registered in two
textually different ways in two files. -/
def dupProj : GoProject :=
  [("a.go", "http.HandleFunc(\"/a\", H1)"), ("b.go", "mux.Handle(\"/a\", H2)")]

/-- A function body with one package-qualified and one bare call. -/
def callContent : String := "func main() \x7b\n\tmyutil.Helper()\n\tProcess(x)\n\x7d"

/-- The last raw route of `dupProj` (the `mux.Handle` registration), used
to witness the first-seen dedup property. -/
def dupRoute : ApiFlowUtils.APIRoute :=
  (ApiFlowUtils.routesRawOfProject "p" dupProj).getD 2
    { id := "", method := "", path := "", handler := "", handlerFile := "",
      handlerLine := 0 }

/-- A directory tree with a `node_modules` directory holding a Go file. -/
def nmTree : List FSEntry := [FSEntry.dir "node_modules" [FSEntry.file "a.go"]]

/-- A one-handler project and route for the trace-closure witness. -/
def tinyProj : GoProject := [("h.go", "func H() \x7b\n\x7d\n")]

def tinyRoute : ApiFlowUtils.APIRoute :=
  { id := "r1", method := "GET", path := "/t", handler := "H",
    handlerFile := "h.go", handlerLine := 1 }

/-- The graph the tracer produces on the one-handler project. -/
def tinyGraph : ApiFlowUtils.FlowGraph :=
  (ApiFlowUtils.traceCompleteDataFlow tinyProj 5 tinyRoute).getD ⟨[], []⟩

end Examples

/-- Referential closure of an edge list against a node list: every edge
endpoint is the `id` of some listed node. -/
def edgesClosed (nodes : List ApiFlowUtils.DataFlowNode)
    (edges : List ApiFlowUtils.DataFlowEdge) : Prop :=
  ∀ e ∈ edges, (∃ n ∈ nodes, n.id = e.source) ∧ (∃ n ∈ nodes, n.id = e.target)

/-- The caller/callee identity of a call edge — everything except the
resolved target location. -/
def callSourceFields (c : GoUtils.FunctionCall) : String × String × Nat × String × String :=
  (c.callerFunc, c.callerFile, c.callerLine, c.calledFunc, c.package)

/-! ## Claim C1 — unreadable files during parsing -/

/-- C1, counterexample.  The claim says an unreadable file makes
`ASTParser.parseFile` return an empty `CodeStructure` instead of throwing,
and that one failing file does not abort a project-wide `ast:analyzeProject`
scan.  On a file system where `p/bad.go` cannot be read, `parseFile`
throws (is not `ok`), and the whole-project scan aborts with that error —
the readable `p/ok.go` is never delivered. -/
theorem c1_counterexample :
    (AstParser.parseFile Examples.errFS "p/bad.go" "p").isOk = false ∧
    AstParser.astAnalyzeProject Examples.errFS ["p/bad.go", "p/ok.go"] "p" =
      Except.error "ENOENT: no such file or directory, open p/bad.go" :=
  ⟨rfl, rfl⟩

theorem parseFile_read_none {fs : FileSys} {path proj : String}
    (h : readFileSync fs path = none) :
    AstParser.parseFile fs path proj =
      Except.error ("ENOENT: no such file or directory, open " ++ path) := by
  unfold AstParser.parseFile
  rw [h]

theorem parseFile_read_some {fs : FileSys} {path proj content : String}
    (h : readFileSync fs path = some content) :
    ∃ st, AstParser.parseFile fs path proj = Except.ok st := by
  unfold AstParser.parseFile
  rw [h]
  exact ⟨_, rfl⟩

theorem exceptMap_isOk {ε α β : Type} (e : Except ε α) (g : α → β) :
    (e.map g).isOk = e.isOk := by
  cases e <;> rfl

theorem parseAllFiles_isOk (fs : FileSys) (proj : String) (files : List String) :
    (AstParser.parseAllFiles fs proj files).isOk = true ↔
      ∀ f ∈ files, (readFileSync fs f).isSome = true := by
  induction files with
  | nil => simp [AstParser.parseAllFiles, Except.isOk, Except.toBool]
  | cons f rest ih =>
    simp only [AstParser.parseAllFiles]
    cases hread : readFileSync fs f with
    | none =>
      rw [parseFile_read_none hread]
      dsimp only
      constructor
      · intro h; exact absurd h (by simp [Except.isOk, Except.toBool])
      · intro h; exact absurd (h f (List.mem_cons_self f rest)) (by simp [hread])
    | some content =>
      rcases parseFile_read_some hread with ⟨st, hok⟩
      rw [hok]
      dsimp only
      cases hrest : AstParser.parseAllFiles fs proj rest with
      | error e =>
        rw [hrest] at ih
        simp only [Except.map, Except.isOk, Except.toBool] at ih ⊢
        simp only [List.mem_cons]
        constructor
        · intro h; cases h
        · intro h; exact absurd (ih.2 fun g hg => h g (Or.inr hg)) (by simp)
      | ok sts =>
        rw [hrest] at ih
        simp only [Except.map, Except.isOk, Except.toBool] at ih ⊢
        simp only [List.mem_cons]
        constructor
        · intro _ g hg
          rcases hg with rfl | hg
          · simp [hread]
          · exact ih.1 (by trivial) g hg
        · intro _; trivial

/-- C1, amended.  `readFileSync` sits before the `try` in `parseFile`, so a
failed read always propagates as a thrown error, and `ast:analyzeProject`
succeeds exactly when every scanned file is readable: its single `try`
wraps the whole loop, so the first unreadable file aborts the scan of the
remaining files and the request reports failure as a whole. -/
theorem c1_amended :
    (∀ fs path proj, readFileSync fs path = none →
      AstParser.parseFile fs path proj =
        Except.error ("ENOENT: no such file or directory, open " ++ path)) ∧
    (∀ fs files proj,
      (AstParser.astAnalyzeProject fs files proj).isOk = true ↔
        ∀ f ∈ files, (readFileSync fs f).isSome = true) := by
  constructor
  · intro fs path proj h
    exact parseFile_read_none h
  · intro fs files proj
    unfold AstParser.astAnalyzeProject
    rw [exceptMap_isOk]
    exact parseAllFiles_isOk fs proj files

/-- C1, witness for the amended theorem at the concrete file system. -/
theorem c1_amended_witness :
    AstParser.parseFile Examples.errFS "p/bad.go" "p" =
      Except.error ("ENOENT: no such file or directory, open " ++ "p/bad.go") ∧
    ((AstParser.astAnalyzeProject Examples.errFS ["p/ok.go"] "p").isOk = true ↔
      ∀ f ∈ ["p/ok.go"], (readFileSync Examples.errFS f).isSome = true) :=
  ⟨c1_amended.1 Examples.errFS "p/bad.go" "p" (by decide),
   c1_amended.2 Examples.errFS ["p/ok.go"] "p"⟩

/-! ## Claim C2 — brace-balanced extraction and string literals -/

/-- C2, counterexample.  The claim says no struct/interface/function block
extraction is perturbed by braces inside string literals.  But
`ASTParser.extractTypeBlock` counts braces per line with bare `includes`
tests: on a struct whose field tag contains `\x7d`, the returned block ends
at line index 1 although the struct's real closing brace is the line at
index 2. -/
theorem c2_counterexample :
    AstParser.extractTypeBlock Examples.tagLines 0 "struct" =
      some ⟨"type T struct \x7b\nA string \x60x\x7dy\x60", 1⟩ ∧
    Examples.tagLines.getD 2 "" = "\x7d" := by
  constructor
  · decide
  · decide

/-- C2, amended.  Only the character-level scanner `extractFunctionBody`
(used for function bodies in the data-flow tracer) is string- and
comment-aware: an unmatched `\x7b` or `\x7d` inside a string literal does
not perturb its brace counter, and the body closes on the real final brace.
`extractTypeBlock` (struct/interface blocks) has no such awareness, as the
counterexample shows. -/
theorem c2_amended :
    ApiFlowUtils.extractFunctionBody "func f() \x7b x := \"foo\x7bbar\" \x7d" 0 =
      "x := \"foo\x7bbar\"" ∧
    ApiFlowUtils.extractFunctionBody "func g() \x7b s := \"a\x7db\"\n\tDo()\n\x7d" 0 =
      "s := \"a\x7db\"\n\tDo()" := by
  constructor
  · decide
  · decide

/-! ## Claim C3 — the end-to-end mux route scenario -/

/-- C3, counterexample.  The claim says the registration
`mux.HandleFunc("/users", GetUsersHandler).Methods("GET")` yields exactly
one `APIRoute`.  It yields two. -/
theorem c3_counterexample :
    ¬ (ApiFlowUtils.discoverAPIRoutesInternal "p" Examples.routeProj).length = 1 := by
  decide

/-- C3, amended.  The registration is matched both by the generic
`(\w+)\.HandleFunc` gorilla-mux pattern (giving the `GET` route) and by the
bare `mux\.HandleFunc` standard-library pattern (giving an `ALL` route);
the two survive `(method, path)` deduplication because their methods
differ, so discovery yields exactly these two routes, the `GET` one first. -/
theorem c3_amended :
    (ApiFlowUtils.discoverAPIRoutesInternal "p" Examples.routeProj).map
        (fun r => (r.method, r.path, r.handler)) =
      [("GET", "/users", "GetUsersHandler"), ("ALL", "/users", "GetUsersHandler")] := by
  decide

/-! ## Claim C5 — determinism of route IDs -/

/-- C5.  `generateStableRouteId` is a pure function of
`(method, path, handler, file, line)`: equal tuples give equal IDs, and
re-running the discoverer over unchanged input reproduces the same ID
list.  (Both parts are immediate because the embedded pipeline is
deterministic by construction, which is exactly the claimed property.) -/
theorem c5_route_id_deterministic :
    (∀ m p h f l m' p' h' f' l', m = m' → p = p' → h = h' → f = f' → l = l' →
      ApiFlowUtils.generateStableRouteId m p h f l =
        ApiFlowUtils.generateStableRouteId m' p' h' f' l') ∧
    (∀ projectPath files,
      (ApiFlowUtils.discoverAPIRoutesInternal projectPath files).map (fun r => r.id) =
        (ApiFlowUtils.discoverAPIRoutesInternal projectPath files).map (fun r => r.id)) := by
  constructor
  · intro m p h f l m' p' h' f' l' hm hp hh hf hl
    subst hm; subst hp; subst hh; subst hf; subst hl; rfl
  · intro _ _; rfl

/-- C5, witness at a concrete tuple. -/
theorem c5_witness :
    ApiFlowUtils.generateStableRouteId "GET" "/users" "GetUsersHandler" "main.go" 1 =
      ApiFlowUtils.generateStableRouteId "GET" "/users" "GetUsersHandler" "main.go" 1 :=
  c5_route_id_deterministic.1 "GET" "/users" "GetUsersHandler" "main.go" 1
    "GET" "/users" "GetUsersHandler" "main.go" 1 rfl rfl rfl rfl rfl

/-! ## Claim C6 — symbol resolution precedence -/

/-- C6, counterexample.  The claim says a project declaring both
`type Foo struct \x7b…\x7d` and `var Foo = …` resolves `Foo` to the struct
regardless of position.  But `findSymbolInProject` scans line by line and
the pattern battery only orders matches *within* one line: when the `var`
declaration appears on an earlier line, the variable is returned. -/
theorem c6_counterexample :
    GoUtils.findSymbolInProject Examples.varFirstProj "Foo" =
      some { name := "Foo", type := "variable", file := "m.go", line := 1,
             signature := "var Foo = 1" } := by
  decide

/-- C6, amended.  The struct wins only when its line precedes the
variable's line (line order dominates; the priority list applies within a
single line). -/
theorem c6_amended :
    GoUtils.findSymbolInProject Examples.structFirstProj "Foo" =
      some { name := "Foo", type := "struct", file := "m.go", line := 1,
             signature := "type Foo struct \x7b\x7d" } := by
  decide

/-! ## Claim C7 — cycle safety of the data-flow trace -/

/-- C7.  On a project where the handler reaches `Alpha` and `Alpha` and
`Beta` call each other, the trace terminates (the fuelled embedding
returns a result, i.e. the `processedFunctions`-guarded recursion bottoms
out), produces the edge `Alpha → Beta` and the back edge `Beta → Alpha`
targeting the *existing* `Alpha` node, and creates exactly one node for
`Beta` (and one for `Alpha`). -/
theorem c7_cycle_safety :
    ApiFlowUtils.traceCompleteDataFlow Examples.cycleProj 10 Examples.cycleRoute =
      some Examples.cycleGraph ∧
    (Examples.cycleGraph.nodes.filter (fun n => n.name = "Beta")).length = 1 ∧
    (Examples.cycleGraph.nodes.filter (fun n => n.name = "Alpha")).length = 1 ∧
    ({ source := "service-Alpha-2", target := "service-Beta-3",
       dataType := some "Data", transformation := none } : ApiFlowUtils.DataFlowEdge) ∈
      Examples.cycleGraph.edges ∧
    ({ source := "service-Beta-3", target := "service-Alpha-2",
       dataType := some "Data", transformation := none } : ApiFlowUtils.DataFlowEdge) ∈
      Examples.cycleGraph.edges ∧
    (∃ n ∈ Examples.cycleGraph.nodes, n.id = "service-Alpha-2" ∧ n.name = "Alpha") := by
  refine ⟨by decide, by decide, by decide, by decide, by decide, by decide⟩

/-! ## Claim C8 — call extraction and resolution -/

/-- C8, counterexample.  The claim says every `identifier.identifier(`
call-shaped substring whose callee is not on the keyword/stdlib deny-list
gets a `FunctionCallEdge`.  On a body containing `myutil.Helper()` (not a
standard-library prefix) and `Process(x)`, extraction records only the
`Process` edge: the deny-list check ends in `name.includes('.')`, which
silently drops *every* dotted callee. -/
theorem c8_counterexample :
    GoUtils.extractFunctionCalls Examples.callContent "m.go" "main" =
      [{ callerFunc := "main", callerFile := "m.go", callerLine := 3,
         calledFunc := "Process", package := "main" }] := by
  decide

theorem isBuiltinOrKeyword_false_no_dot {x : String}
    (h : GoUtils.isBuiltinOrKeyword x = false) : jsIncludes x "." = false := by
  cases hx : jsIncludes x "." with
  | false => rfl
  | true => simp [GoUtils.isBuiltinOrKeyword, hx] at h

theorem extractCallsLoop_mem (fp pkg : String) :
    ∀ (ls : List (Nat × String)) (cf : String) (c : GoUtils.FunctionCall),
      c ∈ GoUtils.extractFunctionCallsLoop fp pkg ls cf →
      GoUtils.isBuiltinOrKeyword c.calledFunc = false ∧
      c.calledFile = none ∧ c.calledLine = none := by
  intro ls
  induction ls with
  | nil => intro cf c hc; simp [GoUtils.extractFunctionCallsLoop] at hc
  | cons hd tl ih =>
    intro cf c hc
    rcases hd with ⟨i, line⟩
    simp only [GoUtils.extractFunctionCallsLoop] at hc
    split at hc
    · exact ih _ c hc
    · rcases List.mem_append.1 hc with h | h
      · rcases List.mem_filterMap.1 h with ⟨cm, _, hsome⟩
        split at hsome
        · cases hsome
        · rename_i hcond
          cases hsome
          exact ⟨Bool.eq_false_iff.mpr hcond, rfl, rfl⟩
      · exact ih _ c h

theorem callSourceFields_resolveOne (fm : List (String × GoUtils.FunctionDef))
    (c : GoUtils.FunctionCall) :
    callSourceFields (GoUtils.resolveCallOne fm c) = callSourceFields c := by
  unfold GoUtils.resolveCallOne
  split <;> rfl

/-- C8, amended.  Call extraction records an edge only for *bare*
identifiers not on the builtin list — the final `name.includes('.')` test
of `isBuiltinOrKeyword` filters out every package-qualified callee, not
just standard-library ones — and a fresh edge always carries no target
location.  Resolution (`resolveCallTargets`) maps each edge through
`resolveCallOne`, preserving the edge count and every caller/callee
identity field; an edge whose two map lookups both fail is returned
completely untouched — resolution never removes an edge. -/
theorem c8_amended :
    (∀ content filePath pkg c, c ∈ GoUtils.extractFunctionCalls content filePath pkg →
      GoUtils.isBuiltinOrKeyword c.calledFunc = false ∧
      jsIncludes c.calledFunc "." = false ∧
      c.calledFile = none ∧ c.calledLine = none) ∧
    (∀ g : GoUtils.CallGraph,
      (GoUtils.resolveCallTargets g).calls.length = g.calls.length ∧
      (GoUtils.resolveCallTargets g).calls.map callSourceFields =
        g.calls.map callSourceFields) ∧
    (∀ fm (c : GoUtils.FunctionCall),
      GoUtils.jsMapGet fm (c.package ++ "." ++ c.calledFunc) = none →
      GoUtils.jsMapGet fm c.calledFunc = none →
      GoUtils.resolveCallOne fm c = c) := by
  refine ⟨?_, ?_, ?_⟩
  · intro content filePath pkg c hc
    have h := extractCallsLoop_mem filePath pkg _ _ c hc
    exact ⟨h.1, isBuiltinOrKeyword_false_no_dot h.1, h.2.1, h.2.2⟩
  · intro g
    constructor
    · simp [GoUtils.resolveCallTargets]
    · unfold GoUtils.resolveCallTargets
      dsimp only
      rw [List.map_map]
      rw [show callSourceFields ∘ GoUtils.resolveCallOne
            (GoUtils.buildFunctionMap g.functions) = callSourceFields from
        funext (callSourceFields_resolveOne (GoUtils.buildFunctionMap g.functions))]
  · intro fm c h1 h2
    unfold GoUtils.resolveCallOne
    rw [h1]
    simp [Option.orElse, h2]

/-- C8, witness: the amended theorem applied to the extracted `Process`
edge of the concrete body. -/
theorem c8_amended_witness :
    GoUtils.isBuiltinOrKeyword "Process" = false ∧
    jsIncludes "Process" "." = false ∧
    ({ callerFunc := "main", callerFile := "m.go", callerLine := 3,
       calledFunc := "Process", package := "main" } :
        GoUtils.FunctionCall).calledFile = none := by
  have h := c8_amended.1 Examples.callContent "m.go" "main"
    { callerFunc := "main", callerFile := "m.go", callerLine := 3,
      calledFunc := "Process", package := "main" } (by decide)
  exact ⟨h.1, h.2.1, h.2.2.1⟩

/-! ## Claim C9 — recursive source-file discovery -/

/-- C9, counterexample.  The claim says discovery never descends into a
directory named `node_modules`; but `getGoFiles` (`goUtils.ts`), one of
the two walkers, only skips dotted directories and `vendor`, so it returns
the Go file inside `node_modules`. -/
theorem c9_counterexample :
    GoUtils.getGoFiles "p" Examples.nmTree = ["p/node_modules/a.go"] := by
  simp +decide [Examples.nmTree, GoUtils.getGoFiles]

theorem goFilesRecursive_names : ∀ (dir : String) (items : List FSEntry)
    (f : String), f ∈ ApiFlowUtils.getGoFilesRecursive dir items →
    ∃ d n, f = d ++ "/" ++ n ∧ isGoSourceName n = true
  | _, [], _, hf => by simp [ApiFlowUtils.getGoFilesRecursive] at hf
  | dir, FSEntry.dir name es :: rest, f, hf => by
    simp only [ApiFlowUtils.getGoFilesRecursive] at hf
    rcases List.mem_append.1 hf with h | h
    · split at h
      · exact goFilesRecursive_names _ es f h
      · simp at h
    · exact goFilesRecursive_names dir rest f h
  | dir, FSEntry.file name :: rest, f, hf => by
    simp only [ApiFlowUtils.getGoFilesRecursive] at hf
    rcases List.mem_append.1 hf with h | h
    · split at h
      · rename_i hg
        rw [List.mem_singleton] at h
        exact ⟨dir, name, h, hg⟩
      · simp at h
    · exact goFilesRecursive_names dir rest f h

/-- C9, amended.  `getGoFilesRecursive` (`apiFlowUtils.ts`) behaves as the
claim says: every returned path is a joined `dir/name` whose file name ends
in `.go` but not `_test.go`; a directory entry is descended into exactly
when its name neither starts with a dot nor equals `vendor` or
`node_modules`, and a matching file entry contributes exactly its joined
path.  `getGoFiles` (`goUtils.ts`), however, omits the `node_modules`
check and descends into such directories (see the counterexample). -/
theorem c9_amended :
    (∀ dir items f, f ∈ ApiFlowUtils.getGoFilesRecursive dir items →
      ∃ d n, f = d ++ "/" ++ n ∧ isGoSourceName n = true) ∧
    (∀ dir name es rest,
      (jsStartsWith name "." || name == "vendor" || name == "node_modules") = true →
      ApiFlowUtils.getGoFilesRecursive dir (FSEntry.dir name es :: rest) =
        ApiFlowUtils.getGoFilesRecursive dir rest) ∧
    (∀ dir name rest,
      ApiFlowUtils.getGoFilesRecursive dir (FSEntry.file name :: rest) =
        (if isGoSourceName name then [dir ++ "/" ++ name] else []) ++
          ApiFlowUtils.getGoFilesRecursive dir rest) ∧
    (∀ dir es rest,
      GoUtils.getGoFiles dir (FSEntry.dir "node_modules" es :: rest) =
        GoUtils.getGoFiles (dir ++ "/" ++ "node_modules") es ++
          GoUtils.getGoFiles dir rest) := by
  refine ⟨goFilesRecursive_names, ?_, ?_, ?_⟩
  · intro dir name es rest h
    simp only [ApiFlowUtils.getGoFilesRecursive]
    have hc : (!jsStartsWith name "." && name != "vendor" && name != "node_modules") =
        false := by
      simp only [Bool.or_eq_true, beq_iff_eq] at h
      rcases h with (h' | h') | h'
      · simp [h']
      · subst h'; simp
      · subst h'; simp
    rw [hc]
    simp
  · intro dir name rest
    simp only [ApiFlowUtils.getGoFilesRecursive]
  · intro dir es rest
    simp only [GoUtils.getGoFiles]
    rw [if_pos (by decide)]

/-- C9, witness: the amended theorem at a one-file tree and a `vendor`
directory. -/
theorem c9_amended_witness :
    (∃ d n, "p/a.go" = d ++ "/" ++ n ∧ isGoSourceName n = true) ∧
    ApiFlowUtils.getGoFilesRecursive "p" [FSEntry.dir "vendor" [FSEntry.file "a.go"]] =
      ApiFlowUtils.getGoFilesRecursive "p" [] :=
  ⟨c9_amended.1 "p" [FSEntry.file "a.go"] "p/a.go"
      (by simp +decide [ApiFlowUtils.getGoFilesRecursive]),
   c9_amended.2.1 "p" "vendor" [FSEntry.file "a.go"] [] (by decide)⟩

/-! ## Claim C4 — deduplication keeps the first route per (method, path) -/

theorem enumFrom_mem {l : List α} : ∀ {i : Nat} {p : Nat × α}, p ∈ enumFrom i l →
    ∃ k, p.1 = i + k ∧ l.get? k = some p.2 := by
  induction l with
  | nil => intro i p h; simp [enumFrom] at h
  | cons a as ih =>
    intro i p h
    simp only [enumFrom, List.mem_cons] at h
    rcases h with rfl | h
    · exact ⟨0, by simp, by simp⟩
    · rcases ih h with ⟨k, hk, hg⟩
      exact ⟨k + 1, by omega, by simpa using hg⟩

theorem get?_mem_enumFrom {l : List α} : ∀ {k : Nat} {a : α} (i : Nat),
    l.get? k = some a → (i + k, a) ∈ enumFrom i l := by
  induction l with
  | nil => intro k a i h; simp at h
  | cons x xs ih =>
    intro k a i h
    cases k with
    | zero =>
      simp only [List.get?] at h
      cases h
      simp [enumFrom]
    | succ k =>
      simp only [List.get?] at h
      simp only [enumFrom, List.mem_cons]
      right
      have harith : i + (k + 1) = (i + 1) + k := by omega
      rw [harith]
      exact ih (i + 1) h

theorem enumFrom_pairwise (l : List α) :
    ∀ i, List.Pairwise (fun p q => p.1 < q.1) (enumFrom i l) := by
  induction l with
  | nil => intro i; simp [enumFrom]
  | cons a as ih =>
    intro i
    simp only [enumFrom]
    constructor
    · intro q hq
      rcases enumFrom_mem hq with ⟨k, hk, -⟩
      omega
    · exact ih (i + 1)

theorem jsFindIndex_get? {p : α → Bool} : ∀ {l : List α} {i : Nat},
    jsFindIndex p l = some i → ∃ a, l.get? i = some a ∧ p a = true := by
  intro l
  induction l with
  | nil => intro i h; simp [jsFindIndex] at h
  | cons x xs ih =>
    intro i h
    simp only [jsFindIndex] at h
    split at h
    · rename_i hp
      cases h
      exact ⟨x, rfl, hp⟩
    · cases hfi : jsFindIndex p xs with
      | none => rw [hfi] at h; simp at h
      | some j =>
        rw [hfi] at h
        simp only [Option.map] at h
        cases h
        rcases ih hfi with ⟨a, hg, hp⟩
        exact ⟨a, by simpa using hg, hp⟩

theorem jsFindIndex_exists {p : α → Bool} : ∀ {l : List α} {a : α},
    a ∈ l → p a = true → ∃ i, jsFindIndex p l = some i := by
  intro l
  induction l with
  | nil => intro a h; simp at h
  | cons x xs ih =>
    intro a ha hp
    simp only [jsFindIndex]
    cases hpx : p x with
    | true => exact ⟨0, by simp⟩
    | false =>
      rcases List.mem_cons.1 ha with rfl | ha'
      · rw [hpx] at hp; cases hp
      · rcases ih ha' hp with ⟨i, hi⟩
        exact ⟨i + 1, by simp [hi]⟩

theorem sameRouteKey_congr {x y : ApiFlowUtils.APIRoute}
    (hm : x.method = y.method) (hp : x.path = y.path) :
    ApiFlowUtils.sameRouteKey x = ApiFlowUtils.sameRouteKey y := by
  funext r
  unfold ApiFlowUtils.sameRouteKey
  rw [hm, hp]

theorem mem_dedupRoutes {routes : List ApiFlowUtils.APIRoute}
    {x : ApiFlowUtils.APIRoute} :
    x ∈ ApiFlowUtils.dedupRoutes routes ↔
      ∃ i, routes.get? i = some x ∧
        jsFindIndex (ApiFlowUtils.sameRouteKey x) routes = some i := by
  unfold ApiFlowUtils.dedupRoutes
  constructor
  · intro hx
    rcases List.mem_map.1 hx with ⟨ir, hmem, rfl⟩
    rcases List.mem_filter.1 hmem with ⟨henum, hcond⟩
    have hfi := eq_of_beq hcond
    rcases enumFrom_mem henum with ⟨k, hk, hg⟩
    refine ⟨ir.1, ?_, hfi⟩
    have : ir.1 = k := by omega
    rw [this]
    exact hg
  · rintro ⟨i, hg, hfi⟩
    apply List.mem_map.2
    refine ⟨(i, x), List.mem_filter.2 ⟨?_, ?_⟩, rfl⟩
    · have := get?_mem_enumFrom 0 hg
      simpa using this
    · exact beq_iff_eq.2 hfi

/-- C4.  The route list returned by `discoverAPIRoutesInternal` contains no
two routes sharing `(method, path)` (as a value-level uniqueness and as a
pairwise property along the list), every returned route is one of the raw
per-file routes, and every raw route is represented in the output by
exactly the *first* raw route carrying its `(method, path)` key (the
`findIndex`-selected one). -/
theorem c4_dedup_first_seen (projectPath : String) (files : GoProject) :
    (∀ x ∈ ApiFlowUtils.discoverAPIRoutesInternal projectPath files,
      ∀ y ∈ ApiFlowUtils.discoverAPIRoutesInternal projectPath files,
      x.method = y.method → x.path = y.path → x = y) ∧
    List.Pairwise (fun a b => ¬(a.method = b.method ∧ a.path = b.path))
      (ApiFlowUtils.discoverAPIRoutesInternal projectPath files) ∧
    (∀ x ∈ ApiFlowUtils.discoverAPIRoutesInternal projectPath files,
      x ∈ ApiFlowUtils.routesRawOfProject projectPath files) ∧
    (∀ r ∈ ApiFlowUtils.routesRawOfProject projectPath files,
      ∃ i x, jsFindIndex (ApiFlowUtils.sameRouteKey r)
          (ApiFlowUtils.routesRawOfProject projectPath files) = some i ∧
        (ApiFlowUtils.routesRawOfProject projectPath files).get? i = some x ∧
        x ∈ ApiFlowUtils.discoverAPIRoutesInternal projectPath files ∧
        x.method = r.method ∧ x.path = r.path) := by
  have hout : ApiFlowUtils.discoverAPIRoutesInternal projectPath files =
      ApiFlowUtils.dedupRoutes (ApiFlowUtils.routesRawOfProject projectPath files) := rfl
  refine ⟨?_, ?_, ?_, ?_⟩
  · intro x hx y hy hm hp
    rw [hout] at hx hy
    rcases mem_dedupRoutes.1 hx with ⟨i, hgi, hfi⟩
    rcases mem_dedupRoutes.1 hy with ⟨j, hgj, hfj⟩
    rw [sameRouteKey_congr hm hp, hfj] at hfi
    cases hfi
    rw [hgj] at hgi
    exact (Option.some.inj hgi).symm
  · rw [hout]
    unfold ApiFlowUtils.dedupRoutes
    rw [List.pairwise_map]
    refine List.Pairwise.imp_of_mem ?_
      (((enumFrom_pairwise (ApiFlowUtils.routesRawOfProject projectPath files) 0)).filter _)
    intro a b ha hb hlt hkey
    rcases List.mem_filter.1 ha with ⟨-, hca⟩
    rcases List.mem_filter.1 hb with ⟨-, hcb⟩
    have hfa := eq_of_beq hca
    have hfb := eq_of_beq hcb
    rw [sameRouteKey_congr hkey.1 hkey.2, hfb] at hfa
    have := Option.some.inj hfa
    omega
  · intro x hx
    rw [hout] at hx
    rcases mem_dedupRoutes.1 hx with ⟨i, hgi, -⟩
    exact List.get?_mem hgi
  · intro r hr
    have hkey : ApiFlowUtils.sameRouteKey r r = true := by
      unfold ApiFlowUtils.sameRouteKey; simp
    rcases jsFindIndex_exists hr hkey with ⟨i, hfi⟩
    rcases jsFindIndex_get? hfi with ⟨x, hg, hx⟩
    have hxr : x.method = r.method ∧ x.path = r.path := by
      unfold ApiFlowUtils.sameRouteKey at hx
      simpa using hx
    refine ⟨i, x, hfi, hg, ?_, hxr.1, hxr.2⟩
    rw [hout]
    apply mem_dedupRoutes.2
    refine ⟨i, hg, ?_⟩
    rw [sameRouteKey_congr hxr.1 hxr.2]
    exact hfi

/-- C4, witness: the first-seen property applied to the second textually
different registration of `(ALL, /a)` in the two-file project. -/
theorem c4_dedup_witness :
    ∃ i x, jsFindIndex (ApiFlowUtils.sameRouteKey Examples.dupRoute)
        (ApiFlowUtils.routesRawOfProject "p" Examples.dupProj) = some i ∧
      (ApiFlowUtils.routesRawOfProject "p" Examples.dupProj).get? i = some x ∧
      x ∈ ApiFlowUtils.discoverAPIRoutesInternal "p" Examples.dupProj ∧
      x.method = Examples.dupRoute.method ∧ x.path = Examples.dupRoute.path :=
  (c4_dedup_first_seen "p" Examples.dupProj).2.2.2 Examples.dupRoute (by decide)

/-! ## Claim C10 — the traced graph is referentially closed -/

theorem createNode_id (files : GoProject) (call : ApiFlowUtils.CallInfo)
    (nodeType nodeId : String) :
    (ApiFlowUtils.createNodeForFunction files call nodeType nodeId).id = nodeId := by
  unfold ApiFlowUtils.createNodeForFunction
  repeat' split
  all_goals rfl

theorem edgesClosed_mono {ns ms : List ApiFlowUtils.DataFlowNode}
    {es : List ApiFlowUtils.DataFlowEdge} (hsub : ns ⊆ ms)
    (h : edgesClosed ns es) : edgesClosed ms es := by
  intro e he
  rcases h e he with ⟨⟨n1, hn1, h1⟩, ⟨n2, hn2, h2⟩⟩
  exact ⟨⟨n1, hsub hn1, h1⟩, ⟨n2, hsub hn2, h2⟩⟩

theorem edgesClosed_push {ns : List ApiFlowUtils.DataFlowNode}
    {es : List ApiFlowUtils.DataFlowEdge} {e : ApiFlowUtils.DataFlowEdge}
    (h : edgesClosed ns es)
    (hs : ∃ n ∈ ns, n.id = e.source) (ht : ∃ n ∈ ns, n.id = e.target) :
    edgesClosed ns (es ++ [e]) := by
  intro e' he'
  rcases List.mem_append.1 he' with h' | h'
  · exact h e' h'
  · rw [List.mem_singleton] at h'
    subst h'
    exact ⟨hs, ht⟩

/-- The nodes of the trace state only grow during the recursive walk, and
every step keeps the edge list referentially closed, provided the incoming
`sourceNodeId` names an existing node. -/
theorem trace_preserves : ∀ fuel : Nat,
    (∀ (files : GoProject) (cf fn : String) (st : ApiFlowUtils.TraceState)
      (srcId : String) (st' : ApiFlowUtils.TraceState),
      ApiFlowUtils.traceFunctionCalls files fuel cf fn st srcId = some st' →
      st.nodes ⊆ st'.nodes ∧
      ((∃ n ∈ st.nodes, n.id = srcId) → edgesClosed st.nodes st.edges →
        edgesClosed st'.nodes st'.edges)) ∧
    (∀ (files : GoProject) (calls : List ApiFlowUtils.CallInfo)
      (st : ApiFlowUtils.TraceState) (srcId : String)
      (st' : ApiFlowUtils.TraceState),
      ApiFlowUtils.traceCallsLoop files fuel calls st srcId = some st' →
      st.nodes ⊆ st'.nodes ∧
      ((∃ n ∈ st.nodes, n.id = srcId) → edgesClosed st.nodes st.edges →
        edgesClosed st'.nodes st'.edges)) := by
  intro fuel
  induction fuel with
  | zero =>
    constructor
    · intro files cf fn st srcId st' h
      simp [ApiFlowUtils.traceFunctionCalls] at h
    · intro files calls st srcId st' h
      simp [ApiFlowUtils.traceCallsLoop] at h
  | succ fuel ih =>
    obtain ⟨ihT, ihL⟩ := ih
    constructor
    · intro files cf fn st srcId st' h
      simp only [ApiFlowUtils.traceFunctionCalls] at h
      split at h
      · cases h
        exact ⟨fun _ hx => hx, fun _ hc => hc⟩
      · split at h
        · cases h
          exact ⟨fun _ hx => hx, fun _ hc => hc⟩
        · have hL := ihL files _ _ _ _ h
          exact ⟨hL.1, hL.2⟩
    · intro files calls st srcId st' h
      match calls with
      | [] =>
        simp only [ApiFlowUtils.traceCallsLoop] at h
        cases h
        exact ⟨fun _ hx => hx, fun _ hc => hc⟩
      | call :: rest =>
        simp only [ApiFlowUtils.traceCallsLoop] at h
        split at h
        · -- no existing node: a new node and a new edge are pushed
          rename_i hfind
          split at h
          · -- recursion into the new node's file
            split at h
            · cases h
            · rename_i st2 htr
              have hT := ihT files _ _ _ _ _ htr
              have hL := ihL files _ _ _ _ h
              constructor
              · exact fun n hn =>
                  hL.1 (hT.1 (List.subset_append_left _ _ hn))
              · intro hsrc hclosed
                apply hL.2
                · rcases hsrc with ⟨n, hn, hid⟩
                  exact ⟨n, hT.1 (List.subset_append_left _ _ hn), hid⟩
                · apply hT.2
                  · exact ⟨_, List.mem_append_right _ (List.mem_singleton.2 rfl),
                      createNode_id _ _ _ _⟩
                  · apply edgesClosed_push
                      (edgesClosed_mono (List.subset_append_left _ _) hclosed)
                    · rcases hsrc with ⟨n, hn, hid⟩
                      exact ⟨n, List.subset_append_left _ _ hn, hid⟩
                    · exact ⟨_, List.mem_append_right _ (List.mem_singleton.2 rfl),
                        createNode_id _ _ _ _⟩
          · -- external / unknown file: no recursion
            have hL := ihL files _ _ _ _ h
            constructor
            · exact fun n hn => hL.1 (List.subset_append_left _ _ hn)
            · intro hsrc hclosed
              apply hL.2
              · rcases hsrc with ⟨n, hn, hid⟩
                exact ⟨n, List.subset_append_left _ _ hn, hid⟩
              · apply edgesClosed_push
                  (edgesClosed_mono (List.subset_append_left _ _) hclosed)
                · rcases hsrc with ⟨n, hn, hid⟩
                  exact ⟨n, List.subset_append_left _ _ hn, hid⟩
                · exact ⟨_, List.mem_append_right _ (List.mem_singleton.2 rfl),
                    createNode_id _ _ _ _⟩
        · -- existing node: only an edge is pushed
          rename_i existingNode hfind
          have hL := ihL files _ _ _ _ h
          constructor
          · exact hL.1
          · intro hsrc hclosed
            apply hL.2
            · exact hsrc
            · apply edgesClosed_push hclosed hsrc
              exact ⟨existingNode, List.mem_of_find?_eq_some hfind, rfl⟩

/-- C10.  Whenever `traceCompleteDataFlow` produces a graph, that graph
contains the route node (id `route-` followed by the route's ID) and is
referentially closed: every edge's `source` and `target` is the `id` of a
node in the returned node list. -/
theorem c10_graph_closed :
    ∀ (files : GoProject) (fuel : Nat) (route : ApiFlowUtils.APIRoute)
      (g : ApiFlowUtils.FlowGraph),
      ApiFlowUtils.traceCompleteDataFlow files fuel route = some g →
      (∃ n ∈ g.nodes, n.id = "route-" ++ route.id ∧ n.type = "route") ∧
      edgesClosed g.nodes g.edges := by
  intro files fuel route g h
  unfold ApiFlowUtils.traceCompleteDataFlow at h
  dsimp only at h
  rcases Option.map_eq_some'.1 h with ⟨stF, htr, rfl⟩
  have hp := (trace_preserves fuel).1 files _ _ _ _ _ htr
  constructor
  · exact ⟨_, hp.1 (List.mem_cons_self _ _), rfl, rfl⟩
  · refine hp.2 ⟨ApiFlowUtils.traceHandlerFunction files route, ?_, rfl⟩ ?_
    · exact List.mem_cons_of_mem _ (List.mem_cons_self _ _)
    · intro e he
      rw [List.mem_singleton] at he
      subst he
      exact ⟨⟨_, List.mem_cons_self _ _, rfl⟩,
        ⟨ApiFlowUtils.traceHandlerFunction files route,
          List.mem_cons_of_mem _ (List.mem_cons_self _ _), rfl⟩⟩

/-- C10, witness: the closure property at the one-handler project. -/
theorem c10_graph_closed_witness :
    (∃ n ∈ Examples.tinyGraph.nodes,
      n.id = "route-" ++ Examples.tinyRoute.id ∧ n.type = "route") ∧
    edgesClosed Examples.tinyGraph.nodes Examples.tinyGraph.edges :=
  c10_graph_closed Examples.tinyProj 5 Examples.tinyRoute Examples.tinyGraph (by decide)

end BackFlow
